import Mathlib

/-!
Verification of the XShaderCompiler core (reflection analyzer, reflection
printer, GLSL converter) against its specification.

The development shallowly embeds the C++ sources:
  - src/Compiler/AST/Visitor/ReflectionAnalyzer.cpp
  - src/Compiler/ReflectionPrinter.cpp
  - src/Compiler/Backend/GLSL/GLSLConverter.cpp
  - Reflection.h (the reflection record data model)
Components of the repository that are not part of the provided sources
(ExprEvaluator, Variant, ASTFactory, the enum string tables, the visitor
framework and AST headers) are modelled from the specification; each such
definition carries a doc comment starting with "Modelled from the spec:".
-/

namespace Xsc

/-- Shader target stage. Modelled from the spec: the ShaderTarget enumeration
(Targets.h is not under src); only the stage names are needed. -/
inductive ShaderTarget where
  | VertexShader
  | TessellationControlShader
  | TessellationEvaluationShader
  | GeometryShader
  | FragmentShader
  | ComputeShader
deriving DecidableEq, Repr

/-- Scalar base types of the shading language. Modelled from the spec:
DataType (ASTEnums.h is not under src) is structured as scalars, 2-4 vectors
and MxN matrices over these six bases. -/
inductive ScalarType where
  | Bool
  | Int
  | UInt
  | Half
  | Float
  | Double
deriving DecidableEq, Repr

/-- AST-side DataType, structured per the spec: scalars, vectors of dimension
2..4 (encoded as a Fin 3 offset by 2) and MxN matrices with M,N in 2..4,
plus String and Undefined. Modelled from the spec (ASTEnums.h not under src). -/
inductive DataType where
  | Undefined
  | String
  | Scalar (s : ScalarType)
  | Vector (s : ScalarType) (n : Fin 3)
  | Matrix (s : ScalarType) (m n : Fin 3)
deriving DecidableEq, Repr

/-- Position of a scalar base within the Bool..Double runs of the reflection
enumerations in Reflection.h. -/
def scalarIdx : ScalarType → Int
  | .Bool => 0
  | .Int => 1
  | .UInt => 2
  | .Half => 3
  | .Float => 4
  | .Double => 5

/-- Numeric code of the Reflection::DataType enumerator a given AST data type
is mapped to by DataTypeToReflType (ReflectionAnalyzer.cpp lines 182-271),
composed with the cast to int performed at the use site. The codes follow the
sequential enumeration in Reflection.h: Undefined = 0, String = 1, the six
scalars 2..7, the 18 vectors 8..25, the 54 matrices 26..79. DataType::String
has no conversion entry in the switch, so it falls to the default case and
yields Undefined (0). -/
def dataTypeToReflCode : DataType → Int
  | .Undefined => 0
  | .String => 0
  | .Scalar s => 2 + scalarIdx s
  | .Vector s n => 8 + 3 * scalarIdx s + (n : Int)
  | .Matrix s m n => 26 + 9 * scalarIdx s + 3 * (m : Int) + (n : Int)

/-- AST-side BufferType. The 22 buffer/texture kinds that have a counterpart
in Reflection::BufferType are listed by name; every further kind of the AST
enumeration (patches, geometry streams, generic textures) is collapsed into
OtherKind, which the conversion table sends to Undefined. Modelled from the
spec (ASTEnums.h not under src). -/
inductive BufferType where
  | Buffer
  | StructuredBuffer
  | ByteAddressBuffer
  | RWBuffer
  | RWStructuredBuffer
  | RWByteAddressBuffer
  | AppendStructuredBuffer
  | ConsumeStructuredBuffer
  | RWTexture1D
  | RWTexture1DArray
  | RWTexture2D
  | RWTexture2DArray
  | RWTexture3D
  | Texture1D
  | Texture1DArray
  | Texture2D
  | Texture2DArray
  | Texture3D
  | TextureCube
  | TextureCubeArray
  | Texture2DMS
  | Texture2DMSArray
  | OtherKind
deriving DecidableEq, Repr

/-- Numeric code of the Reflection::BufferType enumerator a given AST buffer
type is mapped to by BufferTypeToReflType (ReflectionAnalyzer.cpp lines
273-306), composed with the cast to int at the use site. Codes follow the
sequential enumeration in Reflection.h (Undefined = 0, Buffer = 1, ...,
Texture2DMSArray = 22). -/
def bufferTypeToReflCode : BufferType → Int
  | .Buffer => 1
  | .StructuredBuffer => 2
  | .ByteAddressBuffer => 3
  | .RWBuffer => 4
  | .RWStructuredBuffer => 5
  | .RWByteAddressBuffer => 6
  | .AppendStructuredBuffer => 7
  | .ConsumeStructuredBuffer => 8
  | .RWTexture1D => 9
  | .RWTexture1DArray => 10
  | .RWTexture2D => 11
  | .RWTexture2DArray => 12
  | .RWTexture3D => 13
  | .Texture1D => 14
  | .Texture1DArray => 15
  | .Texture2D => 16
  | .Texture2DArray => 17
  | .Texture3D => 18
  | .TextureCube => 19
  | .TextureCubeArray => 20
  | .Texture2DMS => 21
  | .Texture2DMSArray => 22
  | .OtherKind => 0

/-- Modelled from the spec: IsStorageBufferType (ASTEnums.cpp not under src)
distinguishes storage buffers (structured, byte-address, RW, append/consume)
from the typed-texture kinds; the predicates partition the enumeration. -/
def isStorageBufferType : BufferType → Bool
  | .Buffer => true
  | .StructuredBuffer => true
  | .ByteAddressBuffer => true
  | .RWBuffer => true
  | .RWStructuredBuffer => true
  | .RWByteAddressBuffer => true
  | .AppendStructuredBuffer => true
  | .ConsumeStructuredBuffer => true
  | _ => false

/-- Textual representation standing in for a C++ float value. Floating point
is outside the embedding, so float-valued reflection fields keep the literal
token (or a symbolic name for a defaulted constant) that produced them. -/
abbrev FloatLit := String

/-- Decimal digit run to a natural number; none when empty or non-digit. -/
def digitsVal : List Char → Option Nat
  | [] => none
  | cs =>
    cs.foldl
      (fun acc c =>
        match acc with
        | none => none
        | some n => if c.isDigit then some (n * 10 + ((c.toNat : Nat) - 48)) else none)
      (some 0)

/-- Optional leading minus followed by digits, as an integer. -/
def parseIntLit (s : String) : Option Int :=
  match s.data with
  | [] => none
  | c :: rest =>
    if c = Char.ofNat 45 then (digitsVal rest).map (fun n => -(n : Int))
    else (digitsVal (c :: rest)).map (fun n => (n : Int))

/-- Cast of an integer to a C++ int8_t (two's complement wrap). -/
def int8Cast (n : Int) : Int := (n + 128) % 256 - 128

/-- Cast of an integer to a C++ uint8_t. -/
def uint8Cast (n : Int) : Int := n % 256

/-- Cast of an integer to a C++ int32_t (two's complement wrap). -/
def int32Cast (n : Int) : Int := (n + 2147483648) % 4294967296 - 2147483648

/-- Cast of an integer to a C++ uint32_t, as a natural number. -/
def uint32Cast (n : Int) : Nat := (n % 4294967296).toNat

/-- Variant value as decoded from a literal token. Modelled from the spec:
the Variant parser (Variant.cpp not under src) decodes literal values for the
state-object decoders; Bool, Int and Real views are used. The Real view is
kept as the literal token, reals being symbolic in this embedding. -/
structure Variant where
  boolVal : Bool
  intVal : Int
  realSrc : String
deriving DecidableEq, Repr

/-- Modelled from the spec: Variant::ParseFrom decodes a literal token.
Boolean keywords parse to the booleans, integer tokens to their value (their
Bool view being the usual nonzero test), anything else defaults. -/
def variantParseFrom (s : String) : Variant :=
  if s = "true" then ⟨true, 1, s⟩
  else if s = "false" then ⟨false, 0, s⟩
  else
    match parseIntLit s with
    | some n => ⟨n != 0, n, s⟩
    | none => ⟨false, 0, s⟩

namespace Reflection

/-- Sampler filter enumeration (Reflection.h). -/
inductive Filter where
  | None
  | Point
  | Linear
  | Anisotropic
deriving DecidableEq, Repr

/-- Texture address mode enumeration (Reflection.h). -/
inductive TextureAddressMode where
  | Wrap
  | Mirror
  | Clamp
  | Border
  | MirrorOnce
deriving DecidableEq, Repr

/-- Sample comparison function enumeration (Reflection.h). -/
inductive ComparisonFunc where
  | Never
  | Less
  | Equal
  | LessEqual
  | Greater
  | NotEqual
  | GreaterEqual
  | Always
deriving DecidableEq, Repr

/-- Rasterizer fill mode (Reflection.h). -/
inductive FillMode where
  | Wire
  | Solid
deriving DecidableEq, Repr

/-- Rasterizer cull mode (Reflection.h). -/
inductive CullMode where
  | Clockwise
  | CounterClockwise
  | None
deriving DecidableEq, Repr

/-- Stencil operation kind (Reflection.h). -/
inductive StencilOpType where
  | Keep
  | Zero
  | Replace
  | Increment
  | Decrement
  | IncrementWrap
  | DecrementWrap
  | Inverse
deriving DecidableEq, Repr

/-- Blend factor (Reflection.h). -/
inductive BlendFactor where
  | One
  | Zero
  | DestinationRGB
  | SourceRGB
  | DestinationInvRGB
  | SourceInvRGB
  | DestinationA
  | SourceA
  | DestinationInvA
  | SourceInvA
deriving DecidableEq, Repr

/-- Blend operation kind (Reflection.h). -/
inductive BlendOpType where
  | Add
  | Subtract
  | ReverseSubtract
  | Minimum
  | Maximum
deriving DecidableEq, Repr

/-- Render sort mode (Reflection.h). -/
inductive SortMode where
  | None
  | BackToFront
  | FrontToBack
deriving DecidableEq, Repr

/-- Kind of a reflected uniform (Reflection.h). -/
inductive UniformType where
  | Buffer
  | UniformBuffer
  | Sampler
  | Variable
  | Struct
deriving DecidableEq, Repr

/-- Reflection-side variable type (Reflection.h), structured like DataType
with the extra Void case. -/
inductive VarType where
  | Undefined
  | Void
  | Scalar (s : ScalarType)
  | Vector (s : ScalarType) (n : Fin 3)
  | Matrix (s : ScalarType) (m n : Fin 3)
deriving DecidableEq, Repr

/-- Sampler state descriptor (Reflection.h). Float-valued fields keep their
literal representation; the defaults name the constants used in the header
(0.0f, minus/plus FLT_MAX). The header declares the min/max/mip filter
triple, while ReflectionAnalyzer.cpp writes a single filter member for the
Filter key; both are carried so each source file's behaviour is preserved.
The alias member is named aliasIdent here since alias is a Lean keyword. -/
structure SamplerState where
  filterMin : Filter := .Linear
  filterMax : Filter := .Linear
  filterMip : Filter := .Linear
  filter : Filter := .Linear
  addressU : TextureAddressMode := .Wrap
  addressV : TextureAddressMode := .Wrap
  addressW : TextureAddressMode := .Wrap
  mipLODBias : FloatLit := "0"
  maxAnisotropy : Nat := 1
  comparisonFunc : ComparisonFunc := .Always
  borderColor : List FloatLit := ["0", "0", "0", "0"]
  minLOD : FloatLit := "-FLT_MAX"
  maxLOD : FloatLit := "FLT_MAX"
  isNonDefault : Bool := false
  aliasIdent : String := ""
deriving DecidableEq, Repr

/-- Rasterizer options (Reflection.h). -/
structure RasterizerState where
  fillMode : FillMode := .Solid
  cullMode : CullMode := .CounterClockwise
  scissorEnable : Bool := false
  multisampleEnable : Bool := true
  antialisedLineEnable : Bool := false
deriving DecidableEq, Repr

/-- Depth-buffer options (Reflection.h). -/
structure DepthState where
  readEnable : Bool := true
  writeEnable : Bool := true
  compareFunc : ComparisonFunc := .Less
  depthBias : FloatLit := "0"
  scaledDepthBias : FloatLit := "0"
  depthClip : Bool := true
deriving DecidableEq, Repr

/-- Per-face stencil information (Reflection.h). -/
structure StencilOperation where
  fail : StencilOpType := .Keep
  zfail : StencilOpType := .Keep
  pass : StencilOpType := .Keep
  compareFunc : ComparisonFunc := .Always
deriving DecidableEq, Repr

/-- Stencil-buffer options (Reflection.h). The uint8_t masks are carried as
integers in 0..255. -/
structure StencilState where
  enabled : Bool := false
  reference : Int := 0
  readMask : Int := 255
  writeMask : Int := 255
  front : StencilOperation := {}
  back : StencilOperation := {}
deriving DecidableEq, Repr

/-- Blend operation on one operand pair (Reflection.h). -/
structure BlendOperation where
  source : BlendFactor := .One
  destination : BlendFactor := .Zero
  operation : BlendOpType := .Add
deriving DecidableEq, Repr

/-- Blend options of a single render target (Reflection.h). The int8_t write
mask is carried as an integer; its default is 0b1111. -/
structure BlendStateTarget where
  enabled : Bool := false
  writeMask : Int := 15
  colorOp : BlendOperation := {}
  alphaOp : BlendOperation := {}
deriving DecidableEq, Repr

/-- MAX_NUM_RENDER_TARGETS of Reflection::BlendState. -/
def maxNumRenderTargets : Nat := 8

/-- Blend state (Reflection.h); the target array has eight slots. -/
structure BlendState where
  alphaToCoverage : Bool := false
  independantBlend : Bool := false
  targets : List BlendStateTarget := List.replicate maxNumRenderTargets {}
deriving DecidableEq, Repr

/-- Global options of a shader (Reflection.h). -/
structure GlobalOptions where
  sortMode : SortMode := .FrontToBack
  separable : Bool := false
  transparent : Bool := false
  forward : Bool := false
  priority : Int := 0
deriving DecidableEq, Repr

/-- Binding slot (Reflection.h): identifier and zero-based location, with -1
meaning the location has not been set. -/
structure BindingSlot where
  ident : String
  location : Int
deriving DecidableEq, Repr

/-- Uniform flag bit Internal (Reflection.h: 1 shl 0). -/
def uniformFlagInternal : Int := 1

/-- Uniform flag bit Color (Reflection.h: 1 shl 1). -/
def uniformFlagColor : Int := 2

/-- A single element in a constant buffer or an opaque type (Reflection.h). -/
structure Uniform where
  ident : String
  type : UniformType := .Variable
  baseType : Int := 0
  uniformBlock : Int := -1
  defaultValue : Int := -1
  flags : Int := 0
  spriteUVRef : String := ""
deriving DecidableEq, Repr

/-- Entry of the defaultValues sequence (Reflection.h): a 64-byte union,
written either through its matrix member (a raw byte copy, kept abstract as
an integer list) or through its handle member. -/
inductive DefaultValue where
  | raw (payload : List Int)
  | handleVal (h : Int)
deriving DecidableEq, Repr

/-- Parameter flag In (Reflection.h: 1 shl 0). -/
def paramFlagIn : Int := 1

/-- Parameter flag Out (Reflection.h: 1 shl 1). -/
def paramFlagOut : Int := 2

/-- Single function parameter (Reflection.h). -/
structure Parameter where
  type : VarType
  ident : String
  flags : Int
deriving DecidableEq, Repr

/-- A function defined in the program (Reflection.h). -/
structure Function where
  ident : String
  returnValue : VarType
  parameters : List Parameter
deriving DecidableEq, Repr

/-- Compute work-group thread counts (Reflection.h). -/
structure NumThreads where
  x : Int := 0
  y : Int := 0
  z : Int := 0
deriving DecidableEq, Repr

/-- The reflection record (Reflection.h). The std::map of sampler states is
carried as an association list with insert-or-replace update; the driver
creates the record empty. -/
structure ReflectionData where
  macros : List String := []
  textures : List BindingSlot := []
  storageBuffers : List BindingSlot := []
  constantBuffers : List BindingSlot := []
  inputAttributes : List BindingSlot := []
  outputAttributes : List BindingSlot := []
  samplerStates : List (String × SamplerState) := []
  blendState : BlendState := {}
  rasterizerState : RasterizerState := {}
  depthState : DepthState := {}
  stencilState : StencilState := {}
  globalOptions : GlobalOptions := {}
  numThreads : NumThreads := {}
  uniforms : List Uniform := []
  defaultValues : List DefaultValue := []
  functions : List Function := []
deriving DecidableEq, Repr

end Reflection

/-- Insert-or-replace update of the sampler-state association list, matching
the std::map indexing assignment in VisitSamplerDecl. -/
def mapInsert (k : String) (v : Reflection.SamplerState) :
    List (String × Reflection.SamplerState) → List (String × Reflection.SamplerState)
  | [] => [(k, v)]
  | (k0, v0) :: rest => if k0 = k then (k0, v) :: rest else (k0, v0) :: mapInsert k v rest

/-- Lookup in the sampler-state association list. -/
def mapLookup (k : String) :
    List (String × Reflection.SamplerState) → Option Reflection.SamplerState
  | [] => none
  | (k0, v0) :: rest => if k0 = k then some v0 else mapLookup k rest

/-- Number of entries of the association list carrying a given key. -/
def mapCountKey (k : String) : List (String × Reflection.SamplerState) → Nat
  | [] => 0
  | (k0, _) :: rest => (if k0 = k then 1 else 0) + mapCountKey k rest

/-! AST model. The AST headers (AST.h, Visitor.h) are not under src; node
shapes are modelled from the specification at the granularity the analyzer
and converter sources read them. -/

/-- Register slot parsed from the source. Modelled from the spec: resolution
uses Register::GetForTarget(registers, target); a register carries its slot
number and the set of shader targets it applies to. -/
structure Register where
  slot : Int
  targets : List ShaderTarget
deriving DecidableEq, Repr

/-- Modelled from the spec: Register::GetForTarget selects the register of
the current shader target, if any. -/
def registerGetForTarget (regs : List Register) (t : ShaderTarget) : Option Register :=
  regs.find? (fun r => r.targets.contains t)

/-- GetBindingPoint (ReflectionAnalyzer.cpp lines 58-64): the matching
register slot, or -1 when no register matches the target. -/
def getBindingPoint (regs : List Register) (t : ShaderTarget) : Int :=
  match registerGetForTarget regs t with
  | some r => r.slot
  | none => -1

/-- Extended type modifiers (a bitset with Internal and Color bits in the
Banshee fork; ASTEnums.h not under src, modelled from the analyzer uses). -/
structure ExtModifiers where
  internal : Bool := false
  color : Bool := false
deriving DecidableEq, Repr

/-- Type denoter family at the granularity the analyzer and converter probe
it: struct denoters, base denoters (with the Banshee extModifiers and
spriteUVRef fields), array denoters and every other kind. Modelled from the
spec (TypeDenoter.h not under src). -/
inductive TypeDenoter where
  | structTD (ident : String)
  | baseTD (dataType : DataType) (ext : ExtModifiers) (spriteUVRef : String)
  | arrayTD (sub : TypeDenoter)
  | otherTD
deriving DecidableEq, Repr

/-- Modelled from the spec: TypeDenoter::GetSub yields the element type of an
array denoter and the denoter itself otherwise. -/
def typeDenoterGetSub : TypeDenoter → TypeDenoter
  | .arrayTD sub => sub
  | td => td

/-- IsBase probe of a type denoter. -/
def typeDenoterIsBase : TypeDenoter → Bool
  | .baseTD _ _ _ => true
  | _ => false

/-- Modelled from the spec: the constant-expression evaluator (ExprEvaluator
is not under src). An expression handed to EvaluateConstExprInt is
represented by the integer it reduces to, when it reduces to one. -/
abbrev ConstIntExpr := Option Int

/-- EvaluateConstExprInt (ReflectionAnalyzer.cpp lines 66-71): evaluate with
default 0, so an argument that does not reduce to an integer yields zero. -/
def evaluateConstExprInt (e : ConstIntExpr) : Int := e.getD 0

/-- Modelled from the spec: a sub-expression handed to
EvaluateConstExprFloat, represented by its constant real value (textual)
when it reduces to one. -/
abbrev ConstFloatExpr := Option FloatLit

/-- EvaluateConstExprFloat (ReflectionAnalyzer.cpp lines 73-78): evaluate
with default 0. -/
def evaluateConstExprFloat (e : ConstFloatExpr) : FloatLit := e.getD "0"

/-- Value expression of a sampler value initializer, at the granularity
ReflectSamplerValue probes it: literal, enumerator object reference, vector
constructor call (with its IsVector probe and evaluated arguments), cast and
initializer list. -/
inductive SamplerValueExpr where
  | literal (value : String)
  | object (ident : String)
  | callVec (isVector : Bool) (args : List ConstFloatExpr)
  | castSub (arg : ConstFloatExpr)
  | initList (exprs : List ConstFloatExpr)
  | otherExpr
deriving DecidableEq, Repr

/-- Named sampler value initializer (SamplerValue node). -/
structure SamplerValue where
  name : String
  value : SamplerValueExpr
deriving DecidableEq, Repr

/-- Sampler declaration, as read by VisitSamplerDecl: identifier, value
initializers and the optional alias (named aliasIdent, alias being a Lean
keyword). -/
structure SamplerDecl where
  ident : String
  samplerValues : List SamplerValue := []
  aliasIdent : String := ""
deriving DecidableEq, Repr

/-- Modelled from the spec: StringToFilter textual lookup into the Filter
enumeration (string tables not under src); unknown strings fail. -/
def stringToFilter : String → Option Reflection.Filter
  | "None" => some .None
  | "Point" => some .Point
  | "Linear" => some .Linear
  | "Anisotropic" => some .Anisotropic
  | _ => none

/-- Modelled from the spec: StringToTexAddressMode textual lookup. -/
def stringToTexAddressMode : String → Option Reflection.TextureAddressMode
  | "Wrap" => some .Wrap
  | "Mirror" => some .Mirror
  | "Clamp" => some .Clamp
  | "Border" => some .Border
  | "MirrorOnce" => some .MirrorOnce
  | _ => none

/-- Modelled from the spec: StringToCompareFunc textual lookup. -/
def stringToCompareFunc : String → Option Reflection.ComparisonFunc
  | "Never" => some .Never
  | "Less" => some .Less
  | "Equal" => some .Equal
  | "LessEqual" => some .LessEqual
  | "Greater" => some .Greater
  | "NotEqual" => some .NotEqual
  | "GreaterEqual" => some .GreaterEqual
  | "Always" => some .Always
  | _ => none

/-- Modelled from the spec: StringToFillMode textual lookup. -/
def stringToFillMode : String → Option Reflection.FillMode
  | "Wire" => some .Wire
  | "Solid" => some .Solid
  | _ => none

/-- Modelled from the spec: StringToCullMode textual lookup. -/
def stringToCullMode : String → Option Reflection.CullMode
  | "Clockwise" => some .Clockwise
  | "CounterClockwise" => some .CounterClockwise
  | "None" => some .None
  | _ => none

/-- Modelled from the spec: StringToStencilOpType textual lookup. -/
def stringToStencilOpType : String → Option Reflection.StencilOpType
  | "Keep" => some .Keep
  | "Zero" => some .Zero
  | "Replace" => some .Replace
  | "Increment" => some .Increment
  | "Decrement" => some .Decrement
  | "IncrementWrap" => some .IncrementWrap
  | "DecrementWrap" => some .DecrementWrap
  | "Inverse" => some .Inverse
  | _ => none

/-- Modelled from the spec: StringToBlendFactor textual lookup. -/
def stringToBlendFactor : String → Option Reflection.BlendFactor
  | "One" => some .One
  | "Zero" => some .Zero
  | "DestinationRGB" => some .DestinationRGB
  | "SourceRGB" => some .SourceRGB
  | "DestinationInvRGB" => some .DestinationInvRGB
  | "SourceInvRGB" => some .SourceInvRGB
  | "DestinationA" => some .DestinationA
  | "SourceA" => some .SourceA
  | "DestinationInvA" => some .DestinationInvA
  | "SourceInvA" => some .SourceInvA
  | _ => none

/-- Modelled from the spec: StringToBlendOpType textual lookup. -/
def stringToBlendOpType : String → Option Reflection.BlendOpType
  | "Add" => some .Add
  | "Subtract" => some .Subtract
  | "ReverseSubtract" => some .ReverseSubtract
  | "Minimum" => some .Minimum
  | "Maximum" => some .Maximum
  | _ => none

/-- Modelled from the spec: StringToSortMode textual lookup. -/
def stringToSortMode : String → Option Reflection.SortMode
  | "None" => some .None
  | "BackToFront" => some .BackToFront
  | "FrontToBack" => some .FrontToBack
  | _ => none

/-- Modelled from the spec: FromStringOrDefault for float tokens (Helper.h
not under src); the parsed value is carried as the token itself, reals being
symbolic in this embedding. -/
def fromStringOrDefaultFloat (s : String) : FloatLit := s

/-- Modelled from the spec: FromStringOrDefault for unsigned tokens (used
for MaxAnisotropy); non-numeric tokens default to 0. -/
def fromStringOrDefaultNat (s : String) : Nat := (digitsVal s.data).getD 0

/-- ReflectSamplerValue (ReflectionAnalyzer.cpp lines 587-659). Literal
values feed MipLODBias, MaxAnisotropy, MinLOD and MaxLOD; enumerator object
references feed Filter, AddressU/V/W and ComparisonFunc, a failed enum
lookup leaving the field unchanged (reported as warning or error);
BorderColor accepts a 4-argument vector constructor call, a cast (copied
into all four components) or a 4-element initializer list, anything else
leaving the state unchanged. -/
def reflectSamplerValue (v : SamplerValue) (s : Reflection.SamplerState) :
    Reflection.SamplerState :=
  match v.value with
  | .literal value =>
    if v.name = "MipLODBias" then { s with mipLODBias := fromStringOrDefaultFloat value }
    else if v.name = "MaxAnisotropy" then { s with maxAnisotropy := fromStringOrDefaultNat value }
    else if v.name = "MinLOD" then { s with minLOD := fromStringOrDefaultFloat value }
    else if v.name = "MaxLOD" then { s with maxLOD := fromStringOrDefaultFloat value }
    else s
  | .object ident =>
    if v.name = "Filter" then { s with filter := (stringToFilter ident).getD s.filter }
    else if v.name = "AddressU" then { s with addressU := (stringToTexAddressMode ident).getD s.addressU }
    else if v.name = "AddressV" then { s with addressV := (stringToTexAddressMode ident).getD s.addressV }
    else if v.name = "AddressW" then { s with addressW := (stringToTexAddressMode ident).getD s.addressW }
    else if v.name = "ComparisonFunc" then { s with comparisonFunc := (stringToCompareFunc ident).getD s.comparisonFunc }
    else s
  | .callVec isVec args =>
    if v.name = "BorderColor" then
      if isVec && args.length = 4 then { s with borderColor := args.map evaluateConstExprFloat }
      else s
    else s
  | .castSub arg =>
    if v.name = "BorderColor" then
      { s with borderColor := List.replicate 4 (evaluateConstExprFloat arg) }
    else s
  | .initList exprs =>
    if v.name = "BorderColor" then
      if exprs.length = 4 then { s with borderColor := exprs.map evaluateConstExprFloat }
      else s
    else s
  | .otherExpr => s

/-- State decoded for a sampler declaration by VisitSamplerDecl
(ReflectionAnalyzer.cpp lines 112-128): a default-initialized SamplerState,
each value initializer decoded in order with isNonDefault set afterwards,
then the alias copied. -/
def decodeSamplerDecl (d : SamplerDecl) : Reflection.SamplerState :=
  let s := d.samplerValues.foldl
    (fun s v => { reflectSamplerValue v s with isNonDefault := true }) {}
  { s with aliasIdent := d.aliasIdent }

/-- VisitSamplerDecl (ReflectionAnalyzer.cpp lines 112-140): stores the
decoded sampler state under the declaration identifier and appends a
Sampler-typed uniform with the same identifier. -/
def visitSamplerDecl (d : SamplerDecl) (r : Reflection.ReflectionData) :
    Reflection.ReflectionData :=
  { r with
    samplerStates := mapInsert d.ident (decodeSamplerDecl d) r.samplerStates,
    uniforms := r.uniforms ++
      [{ ident := d.ident, type := .Sampler, baseType := 0 }] }

/-! State-object decoding (ReflectionAnalyzer.cpp lines 142-176 and
661-1054). State initializers are lists of named state values; nested
initializers re-use the same shape. -/

/-- Value expression of a state value, at the granularity the state decoders
probe it: literal, enumerator object reference, nested state-initializer
(whose entries are again named state values) or any other expression. -/
inductive StateExpr where
  | literal (value : String)
  | object (ident : String)
  | stateInit (exprs : List (String × StateExpr))
  | otherExpr

/-- Named state value (StateValue node), as a name/value pair. -/
abbrev StateValue := String × StateExpr

/-- Kind of a state declaration (StateType; ASTEnums.h not under src,
modelled from the dispatch in VisitStateDecl). -/
inductive StateType where
  | Rasterizer
  | Depth
  | Stencil
  | Blend
  | Options
  | Undefined
deriving DecidableEq, Repr

/-- State declaration, as read by VisitStateDecl: its kind and the optional
initializer holding the named state values. -/
structure StateDecl where
  stateType : StateType
  initializer : Option (List StateValue)

/-- ReflectStencilOperationValue (lines 661-682): fail/zfail/pass/compare
keys with enumerator values; unknown keys or non-object values only report. -/
def reflectStencilOperationValue (v : StateValue) (op : Reflection.StencilOperation) :
    Reflection.StencilOperation :=
  match v.2 with
  | .object ident =>
    if v.1 = "fail" then { op with fail := (stringToStencilOpType ident).getD op.fail }
    else if v.1 = "zfail" then { op with zfail := (stringToStencilOpType ident).getD op.zfail }
    else if v.1 = "pass" then { op with pass := (stringToStencilOpType ident).getD op.pass }
    else if v.1 = "compare" then { op with compareFunc := (stringToCompareFunc ident).getD op.compareFunc }
    else op
  | _ => op

/-- ReflectBlendOperationValue (lines 684-703): source/dest/op keys with
enumerator values; unknown keys or non-object values only report. -/
def reflectBlendOperationValue (v : StateValue) (op : Reflection.BlendOperation) :
    Reflection.BlendOperation :=
  match v.2 with
  | .object ident =>
    if v.1 = "source" then { op with source := (stringToBlendFactor ident).getD op.source }
    else if v.1 = "dest" then { op with destination := (stringToBlendFactor ident).getD op.destination }
    else if v.1 = "op" then { op with operation := (stringToBlendOpType ident).getD op.operation }
    else op
  | _ => op

/-- ReflectBlendStateTargetValue (lines 705-755): enabled and writemask from
literals, color and alpha from nested initializers, the index key explicitly
ignored (parsed elsewhere); mismatched shapes only report. -/
def reflectBlendStateTargetValue (v : StateValue) (t : Reflection.BlendStateTarget) :
    Reflection.BlendStateTarget :=
  if v.1 = "enabled" then
    match v.2 with
    | .literal s => { t with enabled := (variantParseFrom s).boolVal }
    | _ => t
  else if v.1 = "writemask" then
    match v.2 with
    | .literal s => { t with writeMask := int8Cast (variantParseFrom s).intVal }
    | _ => t
  else if v.1 = "color" then
    match v.2 with
    | .stateInit exprs => { t with colorOp := exprs.foldl (fun op e => reflectBlendOperationValue e op) t.colorOp }
    | _ => t
  else if v.1 = "alpha" then
    match v.2 with
    | .stateInit exprs => { t with alphaOp := exprs.foldl (fun op e => reflectBlendOperationValue e op) t.alphaOp }
    | _ => t
  else t

/-- ReflectRasterizerStateValue (lines 757-807). -/
def reflectRasterizerStateValue (v : StateValue) (st : Reflection.RasterizerState) :
    Reflection.RasterizerState :=
  if v.1 = "scissor" then
    match v.2 with
    | .literal s => { st with scissorEnable := (variantParseFrom s).boolVal }
    | _ => st
  else if v.1 = "multisample" then
    match v.2 with
    | .literal s => { st with multisampleEnable := (variantParseFrom s).boolVal }
    | _ => st
  else if v.1 = "lineaa" then
    match v.2 with
    | .literal s => { st with antialisedLineEnable := (variantParseFrom s).boolVal }
    | _ => st
  else if v.1 = "fill" then
    match v.2 with
    | .object ident => { st with fillMode := (stringToFillMode ident).getD st.fillMode }
    | _ => st
  else if v.1 = "cull" then
    match v.2 with
    | .object ident => { st with cullMode := (stringToCullMode ident).getD st.cullMode }
    | _ => st
  else st

/-- ReflectDepthStateValue (lines 809-872). -/
def reflectDepthStateValue (v : StateValue) (st : Reflection.DepthState) :
    Reflection.DepthState :=
  if v.1 = "read" then
    match v.2 with
    | .literal s => { st with readEnable := (variantParseFrom s).boolVal }
    | _ => st
  else if v.1 = "write" then
    match v.2 with
    | .literal s => { st with writeEnable := (variantParseFrom s).boolVal }
    | _ => st
  else if v.1 = "compare" then
    match v.2 with
    | .object ident => { st with compareFunc := (stringToCompareFunc ident).getD st.compareFunc }
    | _ => st
  else if v.1 = "bias" then
    match v.2 with
    | .literal s => { st with depthBias := (variantParseFrom s).realSrc }
    | _ => st
  else if v.1 = "scaledBias" then
    match v.2 with
    | .literal s => { st with scaledDepthBias := (variantParseFrom s).realSrc }
    | _ => st
  else if v.1 = "clip" then
    match v.2 with
    | .literal s => { st with depthClip := (variantParseFrom s).boolVal }
    | _ => st
  else st

/-- ReflectStencilStateValue (lines 874-940). The uint8_t masks receive an
int8_t cast of the variant integer, stored back into an unsigned byte. -/
def reflectStencilStateValue (v : StateValue) (st : Reflection.StencilState) :
    Reflection.StencilState :=
  if v.1 = "enabled" then
    match v.2 with
    | .literal s => { st with enabled := (variantParseFrom s).boolVal }
    | _ => st
  else if v.1 = "reference" then
    match v.2 with
    | .literal s => { st with reference := int32Cast (variantParseFrom s).intVal }
    | _ => st
  else if v.1 = "readmask" then
    match v.2 with
    | .literal s => { st with readMask := uint8Cast (int8Cast (variantParseFrom s).intVal) }
    | _ => st
  else if v.1 = "writemask" then
    match v.2 with
    | .literal s => { st with writeMask := uint8Cast (int8Cast (variantParseFrom s).intVal) }
    | _ => st
  else if v.1 = "back" then
    match v.2 with
    | .stateInit exprs => { st with back := exprs.foldl (fun op e => reflectStencilOperationValue e op) st.back }
    | _ => st
  else if v.1 = "front" then
    match v.2 with
    | .stateInit exprs => { st with front := exprs.foldl (fun op e => reflectStencilOperationValue e op) st.front }
    | _ => st
  else st

/-- Scan of a target initializer for explicit index keys (the first loop of
the target branch of ReflectBlendStateValue, lines 970-984): every entry
named index whose value is a literal repositions the cursor through a
uint32_t cast of the variant integer; everything else leaves it. -/
def blendTargetIndexScan (exprs : List StateValue) (cur : Nat) : Nat :=
  exprs.foldl
    (fun i e =>
      if e.1 = "index" then
        match e.2 with
        | .literal s => uint32Cast (variantParseFrom s).intVal
        | _ => i
      else i)
    cur

/-- Decoding of every entry of a target initializer into one render-target
slot (the second loop of the target branch, lines 988-989). -/
def decodeBlendTarget (exprs : List StateValue) (t : Reflection.BlendStateTarget) :
    Reflection.BlendStateTarget :=
  exprs.foldl (fun t e => reflectBlendStateTargetValue e t) t

/-- ReflectBlendStateValue (lines 942-999). The dither and independant keys
decode literals; the target key first scans all entries of its nested
initializer for explicit literal index keys, then, when the cursor is below
MAX_NUM_RENDER_TARGETS, decodes every entry into the slot named by the
cursor and increments the cursor; otherwise the target is ignored. -/
def reflectBlendStateValue (v : StateValue) (bs : Reflection.BlendState)
    (blendTargetIdx : Nat) : Reflection.BlendState × Nat :=
  if v.1 = "dither" then
    match v.2 with
    | .literal s => ({ bs with alphaToCoverage := (variantParseFrom s).boolVal }, blendTargetIdx)
    | _ => (bs, blendTargetIdx)
  else if v.1 = "independant" then
    match v.2 with
    | .literal s => ({ bs with independantBlend := (variantParseFrom s).boolVal }, blendTargetIdx)
    | _ => (bs, blendTargetIdx)
  else if v.1 = "target" then
    match v.2 with
    | .stateInit exprs =>
      let idx := blendTargetIndexScan exprs blendTargetIdx
      if idx < Reflection.maxNumRenderTargets then
        let tgt := decodeBlendTarget exprs (bs.targets.getD idx {})
        ({ bs with targets := bs.targets.set idx tgt }, idx + 1)
      else (bs, idx)
    | _ => (bs, blendTargetIdx)
  else (bs, blendTargetIdx)

/-- ReflectOptionsStateValue (lines 1001-1054). The separable, priority and
transparent keys write their fields; the forward key writes the transparent
field (as in the source); sort decodes an enumerator. -/
def reflectOptionsStateValue (v : StateValue) (o : Reflection.GlobalOptions) :
    Reflection.GlobalOptions :=
  if v.1 = "separable" then
    match v.2 with
    | .literal s => { o with separable := (variantParseFrom s).boolVal }
    | _ => o
  else if v.1 = "priority" then
    match v.2 with
    | .literal s => { o with priority := int32Cast (variantParseFrom s).intVal }
    | _ => o
  else if v.1 = "transparent" then
    match v.2 with
    | .literal s => { o with transparent := (variantParseFrom s).boolVal }
    | _ => o
  else if v.1 = "forward" then
    match v.2 with
    | .literal s => { o with transparent := (variantParseFrom s).boolVal }
    | _ => o
  else if v.1 = "sort" then
    match v.2 with
    | .object ident => { o with sortMode := (stringToSortMode ident).getD o.sortMode }
    | _ => o
  else o

/-- VisitStateDecl (ReflectionAnalyzer.cpp lines 142-176): without an
initializer nothing happens; otherwise the named values are decoded into the
state selected by the state kind, the blend decoder threading a render
target cursor starting at 0. -/
def visitStateDecl (d : StateDecl) (r : Reflection.ReflectionData) :
    Reflection.ReflectionData :=
  match d.initializer with
  | none => r
  | some exprs =>
    match d.stateType with
    | .Rasterizer =>
      { r with rasterizerState := exprs.foldl (fun st v => reflectRasterizerStateValue v st) r.rasterizerState }
    | .Depth =>
      { r with depthState := exprs.foldl (fun st v => reflectDepthStateValue v st) r.depthState }
    | .Stencil =>
      { r with stencilState := exprs.foldl (fun st v => reflectStencilStateValue v st) r.stencilState }
    | .Blend =>
      let p := exprs.foldl
        (fun (acc : Reflection.BlendState × Nat) v => reflectBlendStateValue v acc.1 acc.2)
        (r.blendState, 0)
      { r with blendState := p.1 }
    | .Options =>
      { r with globalOptions := exprs.foldl (fun o v => reflectOptionsStateValue v o) r.globalOptions }
    | .Undefined => r

/-! Function declarations and the numthreads attribute. -/

/-- Kind of an attribute, at the granularity ReflectAttributes dispatches on
it (AttributeType; ASTEnums.h not under src). -/
inductive AttributeType where
  | NumThreads
  | OtherAttribute
deriving DecidableEq, Repr

/-- Attribute node: its kind and its argument expressions, each represented
by the constant integer it reduces to, when it reduces to one (the
constant-expression evaluator is modelled from the spec). -/
structure Attribute where
  attributeType : AttributeType
  arguments : List ConstIntExpr
deriving DecidableEq, Repr

/-- Type specifier, at the granularity the analyzer reads it: its type
denoter and the input/output direction predicates. The front-end contract
guarantees populated type specifiers and denoters, so the null checks of the
source always take their non-null branch here. -/
structure TypeSpecifier where
  typeDenoter : TypeDenoter
  isInput : Bool := false
  isOutput : Bool := false
deriving DecidableEq, Repr

/-- Attached default value of a declarator (the Banshee defaultValue member
of VarDecl and BufferDecl): availability flag, the 64-byte payload read
through the matrix member (kept abstract as an integer list) and the handle
member. -/
structure AstDefaultValue where
  available : Bool := false
  payload : List Int := []
  handle : Int := 0
deriving DecidableEq, Repr

/-- Variable declarator, as read by the analyzer. -/
structure VarDecl where
  ident : String
  defaultValue : AstDefaultValue := {}
deriving DecidableEq, Repr

/-- Variable declaration statement: one type specifier and its declarators. -/
structure VarDeclStmnt where
  typeSpecifier : TypeSpecifier
  varDecls : List VarDecl
deriving DecidableEq, Repr

/-- Function declaration, as read by VisitFunctionDecl: identifier, the
entry-point flag, the attributes of its declaration statement, the optional
return type specifier and the parameter statements. -/
structure FunctionDecl where
  ident : String
  isEntryPoint : Bool := false
  attribs : List Attribute := []
  returnType : Option TypeSpecifier := none
  parameters : List VarDeclStmnt := []
deriving DecidableEq, Repr

/-- DataTypeToVarType (ReflectionAnalyzer.cpp lines 308-397): the same-named
VarType for every scalar, vector and matrix data type; String and Undefined
(and every unlisted value) fall to Undefined. -/
def dataTypeToVarType : DataType → Reflection.VarType
  | .Scalar s => .Scalar s
  | .Vector s n => .Vector s n
  | .Matrix s m n => .Matrix s m n
  | .Undefined => .Undefined
  | .String => .Undefined

/-- ReflectAttributesNumThreads (ReflectionAnalyzer.cpp lines 1180-1190):
for the compute target with exactly three arguments, the evaluated argument
triple is stored; otherwise nothing changes. -/
def reflectAttributesNumThreads (t : ShaderTarget) (a : Attribute)
    (r : Reflection.ReflectionData) : Reflection.ReflectionData :=
  if t = ShaderTarget.ComputeShader ∧ a.arguments.length = 3 then
    { r with
      numThreads :=
        { x := evaluateConstExprInt (a.arguments.getD 0 none),
          y := evaluateConstExprInt (a.arguments.getD 1 none),
          z := evaluateConstExprInt (a.arguments.getD 2 none) } }
  else r

/-- ReflectAttributes (ReflectionAnalyzer.cpp lines 1165-1178): dispatch on
the attribute kind; only NumThreads is handled. -/
def reflectAttributes (t : ShaderTarget) (attribs : List Attribute)
    (r : Reflection.ReflectionData) : Reflection.ReflectionData :=
  attribs.foldl
    (fun r a =>
      match a.attributeType with
      | .NumThreads => reflectAttributesNumThreads t a r
      | .OtherAttribute => r)
    r

/-- Parameter record built for one parameter statement by VisitFunctionDecl
(lines 420-444): the first declarator names it, base denoters map through
DataTypeToVarType, anything else is Undefined, and the flags encode the
specifier direction predicates. -/
def functionParameterRecord (entry : VarDeclStmnt) (vd : VarDecl) :
    Reflection.Parameter :=
  let ty :=
    match entry.typeSpecifier.typeDenoter with
    | .baseTD dt _ _ => dataTypeToVarType dt
    | _ => Reflection.VarType.Undefined
  let fl := (if entry.typeSpecifier.isInput then Reflection.paramFlagIn else 0) +
    (if entry.typeSpecifier.isOutput then Reflection.paramFlagOut else 0)
  { type := ty, ident := vd.ident, flags := fl }

/-- VisitFunctionDecl (ReflectionAnalyzer.cpp lines 400-451): entry points
have their declaration-statement attributes reflected first; then a Function
record is appended, with Void return for functions without a return type,
base return denoters mapped through DataTypeToVarType and anything else
Undefined, and one parameter record per parameter statement that has at
least one declarator. -/
def visitFunctionDecl (t : ShaderTarget) (f : FunctionDecl)
    (r : Reflection.ReflectionData) : Reflection.ReflectionData :=
  let r := if f.isEntryPoint then reflectAttributes t f.attribs r else r
  let ret :=
    match f.returnType with
    | none => Reflection.VarType.Void
    | some ts =>
      match ts.typeDenoter with
      | .baseTD dt _ _ => dataTypeToVarType dt
      | _ => Reflection.VarType.Undefined
  let ps := f.parameters.foldl
    (fun acc entry =>
      match entry.varDecls with
      | [] => acc
      | vd :: _ => acc ++ [functionParameterRecord entry vd])
    []
  { r with functions := r.functions ++ [{ ident := f.ident, returnValue := ret, parameters := ps }] }

/-! Uniform buffers and buffer declaration statements. -/

/-- Uniform buffer (cbuffer) declaration, as read by VisitUniformBufferDecl:
identifier, register slots, the Banshee extModifiers and the member
statements. -/
structure UniformBufferDecl where
  ident : String
  slotRegisters : List Register := []
  extModifiers : ExtModifiers := {}
  varMembers : List VarDeclStmnt := []
deriving DecidableEq, Repr

/-- Processing of one member declarator of a uniform buffer (the inner loop
of VisitUniformBufferDecl, lines 492-522), threading the uniform and
default-value sequences. A present base denoter contributes the
Internal/Color flags, the sprite UV reference and - when the declarator has
an attached default value - the copied payload, whose index is stored before
the payload is appended. -/
def uniformMemberStep (blockIdx : Int) (ty : Reflection.UniformType) (btCode : Int)
    (btd : Option (ExtModifiers × String))
    (acc : List Reflection.Uniform × List Reflection.DefaultValue) (decl : VarDecl) :
    List Reflection.Uniform × List Reflection.DefaultValue :=
  let base : Reflection.Uniform :=
    { ident := decl.ident, type := ty, baseType := btCode, uniformBlock := blockIdx, flags := 0 }
  match btd with
  | none => (acc.1 ++ [base], acc.2)
  | some (ext, uv) =>
    let fl := (if ext.internal then Reflection.uniformFlagInternal else 0) +
      (if ext.color then Reflection.uniformFlagColor else 0)
    let u := { base with flags := fl, spriteUVRef := uv }
    if decl.defaultValue.available then
      (acc.1 ++ [{ u with defaultValue := (acc.2.length : Int) }],
        acc.2 ++ [.raw decl.defaultValue.payload])
    else (acc.1 ++ [u], acc.2)

/-- Processing of one member statement of a uniform buffer (the outer loop
of VisitUniformBufferDecl, lines 474-523): struct denoters classify as
Struct with no base denoter; base denoters classify as Variable with their
data type; every other denoter classifies as Variable with Undefined data
type and no base denoter. -/
def uniformBufferMemberStmnt (blockIdx : Int)
    (acc : List Reflection.Uniform × List Reflection.DefaultValue)
    (stmt : VarDeclStmnt) :
    List Reflection.Uniform × List Reflection.DefaultValue :=
  match stmt.typeSpecifier.typeDenoter with
  | .structTD _ =>
    stmt.varDecls.foldl
      (uniformMemberStep blockIdx .Struct (dataTypeToReflCode .Undefined) none) acc
  | .baseTD dt ext uv =>
    stmt.varDecls.foldl
      (uniformMemberStep blockIdx .Variable (dataTypeToReflCode dt) (some (ext, uv))) acc
  | _ =>
    stmt.varDecls.foldl
      (uniformMemberStep blockIdx .Variable (dataTypeToReflCode .Undefined) none) acc

/-- VisitUniformBufferDecl (ReflectionAnalyzer.cpp lines 453-527): appends
the constant-buffer binding slot, then a UniformBuffer-typed uniform (with
the Internal flag of the declaration), then one uniform per member
declarator; every member uniform's uniformBlock is the index of the
just-appended constant buffer. -/
def visitUniformBufferDecl (t : ShaderTarget) (d : UniformBufferDecl)
    (r : Reflection.ReflectionData) : Reflection.ReflectionData :=
  let cbs := r.constantBuffers ++
    [{ ident := d.ident, location := getBindingPoint d.slotRegisters t }]
  let ubUniform : Reflection.Uniform :=
    { ident := d.ident, type := .UniformBuffer, baseType := 0,
      flags := if d.extModifiers.internal then Reflection.uniformFlagInternal else 0 }
  let blockIdx : Int := (cbs.length : Int) - 1
  let p := d.varMembers.foldl (uniformBufferMemberStmnt blockIdx)
    (r.uniforms ++ [ubUniform], r.defaultValues)
  { r with constantBuffers := cbs, uniforms := p.1, defaultValues := p.2 }

/-- Buffer type denoter, as read by VisitBufferDeclStmnt: the buffer kind
and the Banshee extModifiers. -/
structure BufferTypeDenoter where
  bufferType : BufferType
  extModifiers : ExtModifiers := {}
deriving DecidableEq, Repr

/-- Buffer declaration, as read by VisitBufferDeclStmnt. -/
structure BufferDecl where
  ident : String
  slotRegisters : List Register := []
  defaultValue : AstDefaultValue := {}
deriving DecidableEq, Repr

/-- Buffer declaration statement: the shared buffer type denoter and the
declared buffers. -/
structure BufferDeclStmnt where
  typeDenoter : BufferTypeDenoter
  bufferDecls : List BufferDecl
deriving DecidableEq, Repr

/-- Processing of one buffer declaration (the loop body of
VisitBufferDeclStmnt, lines 535-578): the binding slot goes to textures or
storage buffers by IsStorageBufferType, and a Buffer-typed uniform is
appended with the mapped buffer-kind code, the Internal/Color flags and -
when a default value is attached - the handle variant appended to the
default values, its index stored on the uniform. -/
def bufferDeclStep (t : ShaderTarget) (td : BufferTypeDenoter)
    (r : Reflection.ReflectionData) (bd : BufferDecl) : Reflection.ReflectionData :=
  let slot : Reflection.BindingSlot :=
    { ident := bd.ident, location := getBindingPoint bd.slotRegisters t }
  let r1 :=
    if isStorageBufferType td.bufferType = false then
      { r with textures := r.textures ++ [slot] }
    else
      { r with storageBuffers := r.storageBuffers ++ [slot] }
  let fl := (if td.extModifiers.internal then Reflection.uniformFlagInternal else 0) +
    (if td.extModifiers.color then Reflection.uniformFlagColor else 0)
  let base : Reflection.Uniform :=
    { ident := bd.ident, type := .Buffer, baseType := bufferTypeToReflCode td.bufferType,
      flags := fl }
  if bd.defaultValue.available then
    { r1 with
      uniforms := r1.uniforms ++ [{ base with defaultValue := (r1.defaultValues.length : Int) }],
      defaultValues := r1.defaultValues ++ [.handleVal bd.defaultValue.handle] }
  else
    { r1 with uniforms := r1.uniforms ++ [base] }

/-- VisitBufferDeclStmnt (ReflectionAnalyzer.cpp lines 529-581). -/
def visitBufferDeclStmnt (t : ShaderTarget) (d : BufferDeclStmnt)
    (r : Reflection.ReflectionData) : Reflection.ReflectionData :=
  d.bufferDecls.foldl (bufferDeclStep t d.typeDenoter) r

/-! The program walk. -/

/-- Entry-point semantic variable, at the granularity VisitProgram reads it:
identifier and the IndexedSemantic string and index views (IndexedSemantic
itself is not under src). -/
structure SemanticVarDecl where
  ident : String
  semanticName : String
  semanticIndex : Int
deriving DecidableEq, Repr

/-- Partitioned semantic variable list of an entry point (user-named and
system-value references). -/
structure SemanticList where
  varDeclRefs : List SemanticVarDecl := []
  varDeclRefsSV : List SemanticVarDecl := []
deriving DecidableEq, Repr

/-- Entry-point information read by VisitProgram: the input and output
partitions and the entry point's own return semantic. -/
structure EntryPointIO where
  inputSemantics : SemanticList := {}
  outputSemantics : SemanticList := {}
  returnSemanticIsSystemValue : Bool := false
  returnSemanticName : String := ""
  returnSemanticIndex : Int := 0
deriving DecidableEq, Repr

/-- Statements, at the granularity the analyzer's visitor overrides reach
them; the default descent of the visitor framework (not under src) delivers
each declaration below a statement, so statements are carried as the
sequence of visited declarations. -/
inductive Stmnt where
  | samplerDecl (d : SamplerDecl)
  | stateDecl (d : StateDecl)
  | functionDecl (d : FunctionDecl)
  | uniformBufferDecl (d : UniformBufferDecl)
  | bufferDeclStmnt (d : BufferDeclStmnt)
  | otherStmnt

/-- Program node: active statements, disabled statements kept for
reflection, and the entry-point reference. -/
structure Program where
  globalStmnts : List Stmnt := []
  disabledAST : List Stmnt := []
  entryPointRef : Option EntryPointIO := none

/-- Dispatch of one visited statement to the analyzer's override for it. -/
def reflectStmnt (t : ShaderTarget) (r : Reflection.ReflectionData) :
    Stmnt → Reflection.ReflectionData
  | .samplerDecl d => visitSamplerDecl d r
  | .stateDecl d => visitStateDecl d r
  | .functionDecl d => visitFunctionDecl t d r
  | .uniformBufferDecl d => visitUniformBufferDecl t d r
  | .bufferDeclStmnt d => visitBufferDeclStmnt t d r
  | .otherStmnt => r

/-- VisitProgram (ReflectionAnalyzer.cpp lines 85-108) together with
Reflect (lines 28-39): the driver hands in an empty record, both the active
and the disabled statement lists are walked, then the entry point's input
and output semantic partitions are appended as binding slots, followed by
the entry point's own return semantic when it is a system value. -/
def reflect (t : ShaderTarget) (p : Program) : Reflection.ReflectionData :=
  let r := (p.globalStmnts ++ p.disabledAST).foldl (reflectStmnt t) {}
  match p.entryPointRef with
  | none => r
  | some ep =>
    { r with
      inputAttributes := r.inputAttributes ++
        ep.inputSemantics.varDeclRefs.map (fun v => { ident := v.ident, location := v.semanticIndex }) ++
        ep.inputSemantics.varDeclRefsSV.map (fun v => { ident := v.semanticName, location := v.semanticIndex }),
      outputAttributes := r.outputAttributes ++
        ep.outputSemantics.varDeclRefs.map (fun v => { ident := v.ident, location := v.semanticIndex }) ++
        ep.outputSemantics.varDeclRefsSV.map (fun v => { ident := v.semanticName, location := v.semanticIndex }) ++
        (if ep.returnSemanticIsSystemValue then
          [{ ident := ep.returnSemanticName, location := ep.returnSemanticIndex }]
        else []) }

/-! The reflection printer (ReflectionPrinter.cpp). Output is modelled as
the list of printed lines, without the surrounding indentation (the indent
handler is not under src and only prepends a fixed indent per line). -/

/-- Decimal rendering of an integer, as std::to_string produces it. -/
def intToString (n : Int) : String := toString n

/-- A run of blanks. -/
def spacesOf (n : Nat) : String := String.mk (List.replicate n ' ')

/-- Maximum location of a binding-slot list, folded from -1 as in
PrintReflectionObjects (lines 63-65). -/
def maxLocation (objs : List Reflection.BindingSlot) : Int :=
  objs.foldl (fun m o => max m o.location) (-1)

/-- One line of the binding-slot listing (loop body of
PrintReflectionObjects, lines 70-81): when the maximum location is
non-negative, non-negative locations are right-padded to the width of the
maximum and followed by a colon and a blank, and negative locations give a
blank column of the same width; when the maximum location is negative, the
number column is absent. -/
def renderBindingSlot (maxLoc : Int) (maxLocationLen : Nat)
    (o : Reflection.BindingSlot) : String :=
  (if maxLoc ≥ 0 then
    (if o.location ≥ 0 then
      spacesOf (maxLocationLen - (intToString o.location).length) ++
        intToString o.location ++ ": "
    else
      spacesOf maxLocationLen ++ "  ")
  else "") ++ o.ident

/-- PrintReflectionObjects for binding-slot lists (ReflectionPrinter.cpp
lines 55-85), as the list of printed lines. -/
def printReflectionObjects (objs : List Reflection.BindingSlot) : List String :=
  if objs.isEmpty then ["< none >"]
  else
    let maxLoc := maxLocation objs
    let maxLocationLen := (intToString maxLoc).length
    objs.map (renderBindingSlot maxLoc maxLocationLen)

/-! The GLSL converter (GLSLConverter.cpp): the saturate intrinsic rewrite
and the identifier registration machinery. -/

/-- Intrinsic call targets, at the granularity the saturate rewrite needs
them (Intrinsic; ASTEnums.h not under src). -/
inductive Intrinsic where
  | Undefined
  | Saturate
  | Clamp
  | OtherIntrinsic
deriving DecidableEq, Repr

/-- Expressions, at the granularity the saturate rewrite reads them: an
object reference with its type denoter, a synthesized literal-cast
expression, or any other expression with its type denoter. -/
inductive ConvExpr where
  | objectExpr (ident : String) (td : TypeDenoter)
  | literalCastExpr (target : TypeDenoter) (litDataType : DataType) (lit : String)
  | otherExpr (td : TypeDenoter)
deriving DecidableEq, Repr

/-- Type denoter of a converter expression; a literal-cast expression
carries its target denoter. -/
def convExprTypeDenoter : ConvExpr → TypeDenoter
  | .objectExpr _ td => td
  | .literalCastExpr target _ _ => target
  | .otherExpr td => td

/-- Call expression, at the granularity the saturate rewrite reads it. -/
structure CallExpr where
  intrinsic : Intrinsic
  arguments : List ConvExpr
deriving DecidableEq, Repr

/-- Conversion runtime errors raised by the converter; they abort the
compilation by unwinding. -/
inductive ConvError where
  | invalidIntrinsicArgType (intrinsicName : String)
  | invalidIntrinsicArgCount (intrinsicName : String)
deriving DecidableEq, Repr

/-- Modelled from the spec: ASTFactory::MakeLiteralCastExpr (ASTFactory.cpp
not under src) produces a cast of the given literal (here of the source
literal data type) to the given type denoter. -/
def makeLiteralCastExpr (td : TypeDenoter) (dt : DataType) (lit : String) : ConvExpr :=
  .literalCastExpr td dt lit

/-- ConvertIntrinsicCallSaturate (GLSLConverter.cpp lines 823-840): a
single-argument call whose argument type (through GetSub) is a base type
becomes a Clamp call with literal casts of 0 and 1 appended; a non-base
argument or a different argument count raises a conversion runtime error. -/
def convertIntrinsicCallSaturate (c : CallExpr) : Except ConvError CallExpr :=
  match c.arguments with
  | [arg] =>
    let argTypeDen := typeDenoterGetSub (convExprTypeDenoter arg)
    if typeDenoterIsBase argTypeDen then
      .ok
        { c with
          intrinsic := .Clamp,
          arguments := [arg,
            makeLiteralCastExpr argTypeDen (.Scalar .Int) "0",
            makeLiteralCastExpr argTypeDen (.Scalar .Int) "1"] }
    else .error (.invalidIntrinsicArgType "saturate")
  | _ => .error (.invalidIntrinsicArgCount "saturate")

/-- Declaration object, at the granularity RegisterDeclIdent reads it. The
declId field stands for the C++ node identity (the pointer compared by
MustRenameDeclIdent). -/
structure Decl where
  declId : Nat
  ident : String
  isVarDecl : Bool := true
  isShaderInput : Bool := false
deriving DecidableEq, Repr

/-- Converter state for identifier registration: the scope stack (innermost
scope first), the globally reserved declarations (node identity and current
identifier), the struct-declaration context, the obfuscation option and
counter, and the name-mangling configuration (the reserved-word set of the
target and the reserved-word and temporary prefixes; GLSLKeywords.cpp and
the NameMangling defaults are not under src, so these are parameters). -/
structure ConvState where
  scopes : List (List String) := [[]]
  globalReserved : List (Nat × String) := []
  insideStructDecl : Bool := false
  obfuscate : Bool := false
  obfuscationCounter : Nat := 0
  reservedWords : List String := []
  reservedWordPre : String := "xsr_"
  temporaryPre : String := "xst_"
deriving DecidableEq, Repr

/-- FetchFromCurrentScope: the identifier is bound in the innermost scope. -/
def fetchFromCurrentScope (st : ConvState) (ident : String) : Bool :=
  match st.scopes with
  | [] => false
  | sc :: _ => sc.contains ident

/-- Binding of an identifier in the innermost scope (SymbolTable::Register);
without an open scope nothing is recorded. -/
def registerIdent (st : ConvState) (ident : String) : ConvState :=
  match st.scopes with
  | [] => st
  | sc :: rest => { st with scopes := (ident :: sc) :: rest }

/-- The identifier begins with the three characters g, l, underscore
(the compare(0, 3, ...) test of RenameReservedKeyword). -/
def beginsWithGl (s : String) : Bool :=
  s.data.take 3 == [Char.ofNat 103, Char.ofNat 108, Char.ofNat 95]

/-- MustRenameDeclIdent (GLSLConverter.cpp lines 539-571): variable
declarations inside a struct declaration or flagged as shader input are
never renamed; otherwise a matching globally reserved declaration forces a
rename exactly when it is a different node; in every remaining case the
declaration is renamed exactly when its identifier is already bound in the
current scope. -/
def mustRenameDeclIdent (st : ConvState) (d : Decl) : Bool :=
  if d.isVarDecl then
    if st.insideStructDecl || d.isShaderInput then false
    else
      match st.globalReserved.find? (fun g => g.2 = d.ident) with
      | some g => g.1 != d.declId
      | none => fetchFromCurrentScope st d.ident
  else fetchFromCurrentScope st d.ident

/-- RenameReservedKeyword (GLSLConverter.cpp lines 653-682): under
obfuscation every identifier becomes an underscore-counter name; otherwise
identifiers in the reserved set, and identifiers beginning with the gl
prefix, get the reserved-word prefix prepended; everything else is kept. -/
def renameReservedKeyword (st : ConvState) (ident : String) : String × ConvState :=
  if st.obfuscate then
    ("_" ++ Nat.repr st.obfuscationCounter,
      { st with obfuscationCounter := st.obfuscationCounter + 1 })
  else if st.reservedWords.contains ident then (st.reservedWordPre ++ ident, st)
  else if beginsWithGl ident then (st.reservedWordPre ++ ident, st)
  else (ident, st)

/-- RegisterDeclIdent (GLSLConverter.cpp lines 497-511): a required rename
prepends the temporary prefix, then the reserved-keyword rename is applied,
then the final identifier is recorded - globally reserved when requested,
bound in the innermost scope otherwise. -/
def registerDeclIdent (st : ConvState) (d : Decl) (global : Bool) : ConvState :=
  let i1 := if mustRenameDeclIdent st d then st.temporaryPre ++ d.ident else d.ident
  let p := renameReservedKeyword st i1
  if global then
    { p.2 with globalReserved := p.2.globalReserved ++ [(d.declId, p.1)] }
  else registerIdent p.2 p.1

/-- Registration of a sequence of (non-global) declarations, as performed by
the visit methods for variable, buffer and sampler declarations. -/
def registerDecls (st : ConvState) (ds : List Decl) : ConvState :=
  ds.foldl (fun st d => registerDeclIdent st d false) st

/-- The innermost scope of the converter state. -/
def currentScope (st : ConvState) : List String :=
  st.scopes.headD []

/-! Predicates and concrete inputs used by the verification below. -/

/-- Index validity of one uniform against given lengths of the
constant-buffer and default-value sequences: each index is -1 or a valid
position. -/
def uniformOk (cb dv : Nat) (u : Reflection.Uniform) : Prop :=
  (u.uniformBlock = -1 ∨ (0 ≤ u.uniformBlock ∧ u.uniformBlock < (cb : Int))) ∧
  (u.defaultValue = -1 ∨ (0 ≤ u.defaultValue ∧ u.defaultValue < (dv : Int)))

/-- Index validity of every uniform of a reflection record against its own
constant-buffer and default-value sequences. -/
def uniformIndexInv (r : Reflection.ReflectionData) : Prop :=
  ∀ u ∈ r.uniforms, uniformOk r.constantBuffers.length r.defaultValues.length u

/-- The sampler declarations with a given identifier among a statement
sequence, in visit order. -/
def samplerDeclsOf (ident : String) (stmts : List Stmnt) : List SamplerDecl :=
  stmts.filterMap
    (fun s =>
      match s with
      | .samplerDecl d => if d.ident = ident then some d else none
      | _ => none)

/-- Number of Sampler-typed uniforms with a given identifier. -/
def samplerUniformCount (ident : String) (us : List Reflection.Uniform) : Nat :=
  (us.filter (fun u => u.ident = ident ∧ u.type = Reflection.UniformType.Sampler)).length

/-- The last sampler declaration with a given identifier among a statement
sequence, if any. -/
def lastSamplerDecl (ident : String) (stmts : List Stmnt) : Option SamplerDecl :=
  stmts.foldl
    (fun acc s =>
      match s with
      | .samplerDecl d => if d.ident = ident then some d else acc
      | _ => acc)
    none

/-- Compute entry point carrying a numthreads(10, 1, 1) attribute, the
concrete scenario of the specification. -/
def exampleNumThreadsProgram : Program :=
  { globalStmnts :=
      [.functionDecl
        { ident := "CS", isEntryPoint := true,
          attribs := [{ attributeType := .NumThreads, arguments := [some 10, some 1, some 1] }] }] }

/-- Uniform buffer whose single member statement has a struct type denoter
and one declarator with an attached default value. -/
def exampleStructDefaultUBD : UniformBufferDecl :=
  { ident := "cb",
    varMembers :=
      [{ typeSpecifier := { typeDenoter := .structTD "S" },
         varDecls := [{ ident := "m", defaultValue := { available := true, payload := [7] } }] }] }

/-- Uniform buffer with one base-typed member carrying a default value,
used as a concrete witness input. -/
def exampleBaseDefaultUBD : UniformBufferDecl :=
  { ident := "cb",
    varMembers :=
      [{ typeSpecifier := { typeDenoter := .baseTD (.Matrix .Float 2 2) {} "" },
         varDecls := [{ ident := "wvpMatrix", defaultValue := { available := true, payload := [1, 2] } }] }] }

/-- Program consisting of the base-default uniform buffer. -/
def exampleUniformProgram : Program :=
  { globalStmnts := [.uniformBufferDecl exampleBaseDefaultUBD] }

/-- The member uniform the analyzer produces for the base-default buffer. -/
def exampleMemberUniform : Reflection.Uniform :=
  { ident := "wvpMatrix", type := .Variable,
    baseType := dataTypeToReflCode (.Matrix .Float 2 2),
    uniformBlock := 0, defaultValue := 0, flags := 0, spriteUVRef := "" }

/-- Converter state with one reserved word and the default prefixes. -/
def exampleConvState : ConvState :=
  { reservedWords := ["sampler"] }

/-- Two variable declarations whose registration collides: the first takes
the prefixed name the second will be renamed to. -/
def exampleCollidingDecls : List Decl :=
  [{ declId := 0, ident := "xsr_sampler" }, { declId := 1, ident := "sampler" }]

/-- Sampler declaration with two value initializers, the concrete scenario
of the specification. -/
def exampleSamplerDecl : SamplerDecl :=
  { ident := "S",
    samplerValues :=
      [{ name := "Filter", value := .object "Linear" },
       { name := "AddressU", value := .object "Wrap" }] }

/-- Second sampler declaration with the same identifier. -/
def exampleSamplerDecl2 : SamplerDecl :=
  { ident := "S",
    samplerValues := [{ name := "AddressV", value := .object "Clamp" }] }

/-- Program with two sampler declarations sharing one identifier. -/
def exampleDuplicateSamplerProgram : Program :=
  { globalStmnts := [.samplerDecl exampleSamplerDecl, .samplerDecl exampleSamplerDecl2] }

/-- Float3-typed object expression (a three-component float vector is the
Vector case with offset 1). -/
def exampleSaturateArg : ConvExpr :=
  .objectExpr "x" (.baseTD (.Vector .Float 1) {} "")

/-- Saturate call with the Float3 argument. -/
def exampleSaturateCall : CallExpr :=
  { intrinsic := .Saturate, arguments := [exampleSaturateArg] }

/-! Helper lemmas. -/

/-- Preservation of a predicate along a left fold. -/
theorem foldlPreserve {α β : Type _} (P : β → Prop) (f : β → α → β)
    (h : ∀ b a, P b → P (f b a)) :
    ∀ (l : List α) (b : β), P b → P (l.foldl f b) := by
  intro l
  induction l with
  | nil => exact fun b hb => hb
  | cons a t ih => exact fun b hb => ih _ (h _ _ hb)

/-- C8: the forward options key writes the parsed boolean into the
transparent field, no options key writes the forward field, and the forward
field of the defaulted record is false. -/
theorem C8_forward_writes_transparent :
    (∀ (v : StateValue) (o : Reflection.GlobalOptions),
      (reflectOptionsStateValue v o).forward = o.forward) ∧
    (∀ (s : String) (o : Reflection.GlobalOptions),
      (reflectOptionsStateValue ("forward", StateExpr.literal s) o).transparent =
        (variantParseFrom s).boolVal) ∧
    ({} : Reflection.GlobalOptions).forward = false := by
  refine ⟨?_, ?_, rfl⟩
  · intro v o
    obtain ⟨nm, e⟩ := v
    unfold reflectOptionsStateValue
    dsimp only
    split_ifs <;> cases e <;> rfl
  · intro s o
    rfl

/-- C2: for an entry-point numthreads attribute, the thread counts are
recorded exactly when the target is compute and three arguments are present,
each argument evaluated by the constant-expression evaluator with
non-integers yielding zero; the concrete numthreads(10,1,1) program gives
(10,1,1) under the compute target and zeros under the vertex target. -/
theorem C2_numthreads_reflection :
    (∀ (t : ShaderTarget) (a : Attribute) (r : Reflection.ReflectionData),
      (t = ShaderTarget.ComputeShader ∧ a.arguments.length = 3 →
        reflectAttributesNumThreads t a r =
          { r with numThreads :=
              { x := evaluateConstExprInt (a.arguments.getD 0 none),
                y := evaluateConstExprInt (a.arguments.getD 1 none),
                z := evaluateConstExprInt (a.arguments.getD 2 none) } }) ∧
      (¬ (t = ShaderTarget.ComputeShader ∧ a.arguments.length = 3) →
        reflectAttributesNumThreads t a r = r)) ∧
    evaluateConstExprInt none = 0 ∧
    (reflect .ComputeShader exampleNumThreadsProgram).numThreads = { x := 10, y := 1, z := 1 } ∧
    (reflect .VertexShader exampleNumThreadsProgram).numThreads = { x := 0, y := 0, z := 0 } := by
  refine ⟨?_, rfl, rfl, rfl⟩
  intro t a r
  constructor
  · intro h
    unfold reflectAttributesNumThreads
    rw [if_pos h]
  · intro h
    unfold reflectAttributesNumThreads
    rw [if_neg h]

/-- Witness for C2 at the concrete compute numthreads attribute. -/
theorem C2_numthreads_reflection_witness :
    (ShaderTarget.ComputeShader = ShaderTarget.ComputeShader ∧
      (([some 10, some 1, some 1] : List ConstIntExpr)).length = 3) ∧
    reflectAttributesNumThreads ShaderTarget.ComputeShader
        { attributeType := .NumThreads, arguments := [some 10, some 1, some 1] } {} =
      { ({} : Reflection.ReflectionData) with numThreads :=
          { x := evaluateConstExprInt (([some 10, some 1, some 1] : List ConstIntExpr).getD 0 none),
            y := evaluateConstExprInt (([some 10, some 1, some 1] : List ConstIntExpr).getD 1 none),
            z := evaluateConstExprInt (([some 10, some 1, some 1] : List ConstIntExpr).getD 2 none) } } :=
  ⟨⟨rfl, rfl⟩,
    (C2_numthreads_reflection.1 ShaderTarget.ComputeShader
      { attributeType := .NumThreads, arguments := [some 10, some 1, some 1] } {}).1 ⟨rfl, rfl⟩⟩

/-- C6: a saturate call with one base-typed argument becomes a Clamp call
with literal casts of 0 and 1 to that base type appended; a non-base
argument or a different argument count raises a conversion runtime error. -/
theorem C6_saturate_conversion :
    ∀ (c : CallExpr), c.intrinsic = Intrinsic.Saturate →
      (∀ arg, c.arguments = [arg] →
        (typeDenoterIsBase (typeDenoterGetSub (convExprTypeDenoter arg)) = true →
          convertIntrinsicCallSaturate c =
            .ok { intrinsic := .Clamp,
                  arguments := [arg,
                    makeLiteralCastExpr (typeDenoterGetSub (convExprTypeDenoter arg)) (.Scalar .Int) "0",
                    makeLiteralCastExpr (typeDenoterGetSub (convExprTypeDenoter arg)) (.Scalar .Int) "1"] }) ∧
        (typeDenoterIsBase (typeDenoterGetSub (convExprTypeDenoter arg)) = false →
          convertIntrinsicCallSaturate c = .error (.invalidIntrinsicArgType "saturate"))) ∧
      (c.arguments.length ≠ 1 →
        convertIntrinsicCallSaturate c = .error (.invalidIntrinsicArgCount "saturate")) := by
  intro c hc
  obtain ⟨ci, args⟩ := c
  constructor
  · intro arg ha
    dsimp only at ha
    subst ha
    constructor
    · intro hb
      unfold convertIntrinsicCallSaturate
      dsimp only
      rw [if_pos hb]
    · intro hb
      unfold convertIntrinsicCallSaturate
      dsimp only
      rw [if_neg (by simp [hb])]
  · intro hlen
    dsimp only at hlen
    match args, hlen with
    | [], _ => rfl
    | [a], h => exact absurd rfl h
    | a :: b :: t, _ => rfl

/-- Witness for C6 at the concrete saturate(x) call with x of type Float3. -/
theorem C6_saturate_conversion_witness :
    (exampleSaturateCall.intrinsic = Intrinsic.Saturate ∧
      exampleSaturateCall.arguments = [exampleSaturateArg] ∧
      typeDenoterIsBase (typeDenoterGetSub (convExprTypeDenoter exampleSaturateArg)) = true) ∧
    convertIntrinsicCallSaturate exampleSaturateCall =
      .ok { intrinsic := .Clamp,
            arguments := [exampleSaturateArg,
              makeLiteralCastExpr (typeDenoterGetSub (convExprTypeDenoter exampleSaturateArg)) (.Scalar .Int) "0",
              makeLiteralCastExpr (typeDenoterGetSub (convExprTypeDenoter exampleSaturateArg)) (.Scalar .Int) "1"] } :=
  ⟨⟨rfl, rfl, rfl⟩,
    ((C6_saturate_conversion exampleSaturateCall rfl).1 exampleSaturateArg rfl).1 rfl⟩

/-- A target initializer without any index entry leaves the cursor. -/
theorem blendScanNoIndex :
    ∀ (exprs : List StateValue) (cur : Nat),
      (∀ e ∈ exprs, e.1 ≠ "index") → blendTargetIndexScan exprs cur = cur := by
  intro exprs
  induction exprs with
  | nil => intro cur _; rfl
  | cons e t ih =>
    intro cur h
    unfold blendTargetIndexScan
    rw [List.foldl_cons]
    have he : (if e.1 = "index" then
        (match e.2 with
          | StateExpr.literal s => uint32Cast (variantParseFrom s).intVal
          | _ => cur)
        else cur) = cur := if_neg (h e (List.mem_cons_self e t))
    rw [he]
    exact ih cur (fun x hx => h x (List.mem_cons_of_mem e hx))

/-- A trailing explicit literal index entry determines the scanned cursor. -/
theorem blendScanAppendLiteral :
    ∀ (l : List StateValue) (cur : Nat) (s : String),
      blendTargetIndexScan (l ++ [("index", StateExpr.literal s)]) cur =
        uint32Cast (variantParseFrom s).intVal := by
  intro l cur s
  unfold blendTargetIndexScan
  rw [List.foldl_append]
  rfl

/-- Reduction of the target branch of ReflectBlendStateValue to the scanned
cursor, the slot update and the ignore case. -/
theorem reflectBlendTargetEq (exprs : List StateValue) (bs : Reflection.BlendState) (cur : Nat) :
    reflectBlendStateValue ("target", StateExpr.stateInit exprs) bs cur =
      (if blendTargetIndexScan exprs cur < Reflection.maxNumRenderTargets then
        ({ bs with targets := (bs.targets.set (blendTargetIndexScan exprs cur) (decodeBlendTarget exprs (bs.targets.getD (blendTargetIndexScan exprs cur) {}))) },
          blendTargetIndexScan exprs cur + 1)
      else (bs, blendTargetIndexScan exprs cur)) := rfl

/-- C3: blend decoding maintains a render-target cursor: a target without an
explicit index key is decoded into the slot named by the cursor (which then
increments); an explicit literal index key repositions the cursor before the
keys are decoded; a cursor at or above MAX_NUM_RENDER_TARGETS (= 8) ignores
the target, modifying no slot; slots other than the addressed one are never
modified. -/
theorem C3_blend_target_cursor :
    Reflection.maxNumRenderTargets = 8 ∧
    ∀ (exprs : List StateValue) (bs : Reflection.BlendState) (cur : Nat),
      ((∀ e ∈ exprs, e.1 ≠ "index") → blendTargetIndexScan exprs cur = cur) ∧
      (∀ (l : List StateValue) (s : String),
        blendTargetIndexScan (l ++ [("index", StateExpr.literal s)]) cur =
          uint32Cast (variantParseFrom s).intVal) ∧
      (blendTargetIndexScan exprs cur < 8 →
        reflectBlendStateValue ("target", StateExpr.stateInit exprs) bs cur =
          ({ bs with targets := (bs.targets.set (blendTargetIndexScan exprs cur) (decodeBlendTarget exprs (bs.targets.getD (blendTargetIndexScan exprs cur) {}))) },
            blendTargetIndexScan exprs cur + 1)) ∧
      (8 ≤ blendTargetIndexScan exprs cur →
        reflectBlendStateValue ("target", StateExpr.stateInit exprs) bs cur =
          (bs, blendTargetIndexScan exprs cur)) ∧
      (∀ j, j ≠ blendTargetIndexScan exprs cur →
        ((reflectBlendStateValue ("target", StateExpr.stateInit exprs) bs cur).1.targets)[j]? =
          bs.targets[j]?) := by
  refine ⟨rfl, ?_⟩
  intro exprs bs cur
  refine ⟨blendScanNoIndex exprs cur, fun l s => blendScanAppendLiteral l cur s, ?_, ?_, ?_⟩
  · intro hlt
    rw [reflectBlendTargetEq,
      if_pos (show blendTargetIndexScan exprs cur < Reflection.maxNumRenderTargets from hlt)]
  · intro hge
    rw [reflectBlendTargetEq,
      if_neg (show ¬ blendTargetIndexScan exprs cur < Reflection.maxNumRenderTargets from
        Nat.not_lt.mpr hge)]
  · intro j hj
    rw [reflectBlendTargetEq]
    by_cases hlt : blendTargetIndexScan exprs cur < Reflection.maxNumRenderTargets
    · rw [if_pos hlt]
      exact List.getElem?_set_ne (Ne.symm hj)
    · rw [if_neg hlt]

/-- Witness for C3 at a concrete target initializer with an explicit index. -/
theorem C3_blend_target_cursor_witness :
    ((3 : Nat) < 8 ∧ ((2 : Nat) ≠ 3) ∧
      blendTargetIndexScan [("index", StateExpr.literal "3"), ("enabled", StateExpr.literal "true")] 0 = 3) ∧
    reflectBlendStateValue ("target",
        StateExpr.stateInit [("index", StateExpr.literal "3"), ("enabled", StateExpr.literal "true")])
        {} 0 =
      ({ ({} : Reflection.BlendState) with
          targets := ((({} : Reflection.BlendState).targets.set 3 (decodeBlendTarget [("index", StateExpr.literal "3"), ("enabled", StateExpr.literal "true")] (({} : Reflection.BlendState).targets.getD 3 {})))) }, 4) ∧
    ((reflectBlendStateValue ("target",
        StateExpr.stateInit [("index", StateExpr.literal "3"), ("enabled", StateExpr.literal "true")])
        {} 0).1.targets)[2]? = (({} : Reflection.BlendState).targets)[2]? := by
  have h3 : blendTargetIndexScan
      [("index", StateExpr.literal "3"), ("enabled", StateExpr.literal "true")] 0 = 3 := rfl
  refine ⟨⟨by decide, by decide, h3⟩, ?_, ?_⟩
  · have := ((C3_blend_target_cursor.2
      [("index", StateExpr.literal "3"), ("enabled", StateExpr.literal "true")] {} 0).2.2.1)
    rw [h3] at this
    exact this (by decide)
  · have := ((C3_blend_target_cursor.2
      [("index", StateExpr.literal "3"), ("enabled", StateExpr.literal "true")] {} 0).2.2.2.2) 2
    rw [h3] at this
    exact this (by decide)

/-- A fold whose step forces the isNonDefault flag ends with it set whenever
the list is nonempty. -/
theorem foldNonDefaultTrue (f : Reflection.SamplerState → SamplerValue → Reflection.SamplerState)
    (hf : ∀ s v, (f s v).isNonDefault = true) :
    ∀ (vs : List SamplerValue) (s : Reflection.SamplerState), vs ≠ [] →
      (vs.foldl f s).isNonDefault = true := by
  intro vs
  induction vs with
  | nil => intro s h; exact absurd rfl h
  | cons v t ih =>
    intro s _
    rw [List.foldl_cons]
    cases t with
    | nil => exact hf s v
    | cons v2 t2 => exact ih _ (by simp)

/-- Looking up the inserted key yields the inserted value. -/
theorem mapLookupInsert (k : String) (v : Reflection.SamplerState)
    (m : List (String × Reflection.SamplerState)) :
    mapLookup k (mapInsert k v m) = some v := by
  induction m with
  | nil => simp [mapInsert, mapLookup]
  | cons hd tl ih =>
    obtain ⟨k0, v0⟩ := hd
    by_cases h : k0 = k
    · subst h
      simp [mapInsert, mapLookup]
    · simpa [mapInsert, mapLookup, h] using ih

/-- Looking up a different key is unaffected by an insert. -/
theorem mapLookupInsertNe (k k2 : String) (v : Reflection.SamplerState)
    (m : List (String × Reflection.SamplerState)) (h : k2 ≠ k) :
    mapLookup k2 (mapInsert k v m) = mapLookup k2 m := by
  induction m with
  | nil =>
    simp only [mapInsert, mapLookup]
    rw [if_neg (fun hh => h hh.symm)]
  | cons hd tl ih =>
    obtain ⟨k0, v0⟩ := hd
    by_cases hh : k0 = k
    · simp only [mapInsert, if_pos hh, mapLookup]
      rw [if_neg (fun h2 => h (hh ▸ h2).symm), if_neg (fun h2 => h (hh ▸ h2).symm)]
    · simp only [mapInsert, if_neg hh, mapLookup]
      by_cases h2 : k0 = k2
      · rw [if_pos h2, if_pos h2]
      · rw [if_neg h2, if_neg h2]
        exact ih

/-- C5: visiting a sampler declaration stores the state decoded from a
default-initialized record under the declaration identifier, with
isNonDefault set exactly when an initializer was present and the alias
copied, and appends one Sampler-typed uniform with the same identifier. -/
theorem C5_sampler_decl_reflection :
    ∀ (d : SamplerDecl) (r : Reflection.ReflectionData),
      mapLookup d.ident (visitSamplerDecl d r).samplerStates = some (decodeSamplerDecl d) ∧
      ((decodeSamplerDecl d).isNonDefault = true ↔ d.samplerValues ≠ []) ∧
      (decodeSamplerDecl d).aliasIdent = d.aliasIdent ∧
      (d.samplerValues = [] → decodeSamplerDecl d = { aliasIdent := d.aliasIdent }) ∧
      (visitSamplerDecl d r).uniforms =
        r.uniforms ++ [{ ident := d.ident, type := .Sampler, baseType := 0 }] := by
  intro d r
  refine ⟨?_, ⟨?_, ?_⟩, ?_, ?_, rfl⟩
  · exact mapLookupInsert d.ident (decodeSamplerDecl d) r.samplerStates
  · intro h hne
    unfold decodeSamplerDecl at h
    rw [hne] at h
    simp at h
  · intro h
    exact foldNonDefaultTrue
      (fun s v => { reflectSamplerValue v s with isNonDefault := true })
      (fun s v => rfl) d.samplerValues {} h
  · rfl
  · intro h
    unfold decodeSamplerDecl
    rw [h]
    rfl

/-- Witness for C5 at the concrete sampler-state declaration of the
specification scenario. -/
theorem C5_sampler_decl_reflection_witness :
    mapLookup "S" (visitSamplerDecl exampleSamplerDecl {}).samplerStates =
      some (decodeSamplerDecl exampleSamplerDecl) ∧
    ((decodeSamplerDecl exampleSamplerDecl).isNonDefault = true ∧
      (decodeSamplerDecl exampleSamplerDecl).filter = Reflection.Filter.Linear ∧
      (decodeSamplerDecl exampleSamplerDecl).addressU = Reflection.TextureAddressMode.Wrap) := by
  refine ⟨(C5_sampler_decl_reflection exampleSamplerDecl {}).1, ?_, rfl, rfl⟩
  exact (C5_sampler_decl_reflection exampleSamplerDecl {}).2.1.mpr (by decide)

/-- C9 counterexample: in a list whose locations are all -1, a slot renders
as the bare identifier, so it does not carry blanks in a number column as
the claim asserts for every list. -/
theorem c9_counterexample :
    ¬ (∀ (objs : List Reflection.BindingSlot) (i : Nat) (hi : i < objs.length),
        (objs.get ⟨i, hi⟩).location = -1 →
        ∃ k, 0 < k ∧ (printReflectionObjects objs)[i]? =
          some (spacesOf k ++ (objs.get ⟨i, hi⟩).ident)) := by
  intro h
  obtain ⟨k, hk, he⟩ := h [{ ident := "tex", location := -1 }] 0 (by decide) rfl
  have h1 : (printReflectionObjects [{ ident := "tex", location := -1 }])[0]? =
      some "tex" := rfl
  rw [h1] at he
  have h3 : ("tex" : String) = spacesOf k ++ "tex" := Option.some.inj he
  have h4 : ("tex" : String).length = (spacesOf k ++ "tex").length := by rw [← h3]
  rw [String.length_append] at h4
  have h5 : (spacesOf k).length = k := by
    unfold spacesOf
    rw [String.length_mk, List.length_replicate]
  have h6 : ("tex" : String).length = 3 := rfl
  omega

/-- Strict upper bounds of the location maximum fold. -/
theorem foldMaxLt (objs : List Reflection.BindingSlot) :
    ∀ (a c : Int),
      (objs.foldl (fun m o => max m o.location) a < c ↔
        a < c ∧ ∀ o ∈ objs, o.location < c) := by
  induction objs with
  | nil => intro a c; simp
  | cons o t ih =>
    intro a c
    rw [List.foldl_cons, ih]
    constructor
    · rintro ⟨hm, hall⟩
      rw [max_lt_iff] at hm
      refine ⟨hm.1, ?_⟩
      intro x hx
      rcases List.mem_cons.mp hx with hx | hx
      · rw [hx]; exact hm.2
      · exact hall x hx
    · rintro ⟨ha, hall⟩
      exact ⟨max_lt_iff.mpr ⟨ha, hall o (List.mem_cons_self o t)⟩,
        fun x hx => hall x (List.mem_cons_of_mem o hx)⟩

/-- C9 amended: a nonempty binding-slot list prints one line per slot; when
some location is non-negative, non-negative locations are right-aligned to
the width of the maximum location and followed by a colon and blank, and
slots with location -1 get a blank number column of that width plus two;
when every location is negative the number column is omitted entirely and
each line is the bare identifier. -/
theorem C9_binding_slot_printing_amended :
    ∀ (objs : List Reflection.BindingSlot), objs ≠ [] →
      (printReflectionObjects objs).length = objs.length ∧
      (maxLocation objs < 0 ↔ ∀ o ∈ objs, o.location < 0) ∧
      ∀ (i : Nat) (hi : i < objs.length),
        ((objs.get ⟨i, hi⟩).location = -1 → 0 ≤ maxLocation objs →
          (printReflectionObjects objs)[i]? =
            some (spacesOf ((intToString (maxLocation objs)).length) ++ "  " ++
              (objs.get ⟨i, hi⟩).ident)) ∧
        ((objs.get ⟨i, hi⟩).location = -1 → maxLocation objs < 0 →
          (printReflectionObjects objs)[i]? = some ((objs.get ⟨i, hi⟩).ident)) ∧
        (0 ≤ (objs.get ⟨i, hi⟩).location →
          (printReflectionObjects objs)[i]? =
            some (spacesOf ((intToString (maxLocation objs)).length -
                (intToString (objs.get ⟨i, hi⟩).location).length) ++
              intToString (objs.get ⟨i, hi⟩).location ++ ": " ++ (objs.get ⟨i, hi⟩).ident)) := by
  intro objs hne
  have hemp : objs.isEmpty = false := by
    cases objs with
    | nil => exact absurd rfl hne
    | cons o t => rfl
  have hprint : printReflectionObjects objs =
      objs.map (renderBindingSlot (maxLocation objs) ((intToString (maxLocation objs)).length)) := by
    unfold printReflectionObjects
    rw [hemp]
    rfl
  have hget : ∀ (i : Nat) (hi : i < objs.length),
      (printReflectionObjects objs)[i]? =
        some (renderBindingSlot (maxLocation objs) ((intToString (maxLocation objs)).length)
          (objs.get ⟨i, hi⟩)) := by
    intro i hi
    rw [hprint, List.getElem?_map, List.getElem?_eq_getElem hi]
    rfl
  refine ⟨?_, ?_, ?_⟩
  · rw [hprint, List.length_map]
  · constructor
    · intro hlt
      exact ((foldMaxLt objs (-1) 0).mp hlt).2
    · intro hall
      exact (foldMaxLt objs (-1) 0).mpr ⟨by decide, hall⟩
  · intro i hi
    refine ⟨?_, ?_, ?_⟩
    · intro hloc hmax
      rw [hget i hi]
      unfold renderBindingSlot
      rw [if_pos hmax, if_neg (by rw [hloc]; decide)]
    · intro hloc hmax
      rw [hget i hi]
      unfold renderBindingSlot
      rw [if_neg (by omega)]
      rw [String.empty_append]
    · intro hloc
      rw [hget i hi]
      unfold renderBindingSlot
      have hmax : maxLocation objs ≥ 0 := by
        by_contra hc
        push_neg at hc
        exact absurd ((foldMaxLt objs (-1) 0).mp hc).2
          (by push_neg; exact ⟨objs.get ⟨i, hi⟩, List.get_mem objs i hi, hloc⟩)
      rw [if_pos hmax, if_pos (show (objs.get ⟨i, hi⟩).location ≥ 0 from hloc)]

/-- Witness for C9 amended at a two-slot list with one unset location. -/
theorem C9_binding_slot_printing_amended_witness :
    (([{ ident := "a", location := -1 }, { ident := "b", location := 10 }] :
        List Reflection.BindingSlot) ≠ [] ∧
      (0 : Nat) < 2 ∧
      (0 : Int) ≤ maxLocation [{ ident := "a", location := -1 }, { ident := "b", location := 10 }]) ∧
    (printReflectionObjects
        [{ ident := "a", location := -1 }, { ident := "b", location := 10 }])[0]? =
      some (spacesOf ((intToString (maxLocation
          [{ ident := "a", location := -1 }, { ident := "b", location := 10 }])).length) ++ "  " ++
        (([{ ident := "a", location := -1 }, { ident := "b", location := 10 }] :
          List Reflection.BindingSlot).get ⟨0, by decide⟩).ident) := by
  refine ⟨⟨by decide, by decide, by decide⟩, ?_⟩
  exact ((C9_binding_slot_printing_amended
    [{ ident := "a", location := -1 }, { ident := "b", location := 10 }]
    (by decide)).2.2 0 (by decide)).1 rfl (by decide)

/-- C7 counterexample: registering a declaration named like the prefixed
form of a reserved word and then the reserved word itself binds the same
identifier twice in one scope, because the collision check runs on the
original name before the reserved-keyword rename. -/
theorem c7_counterexample :
    currentScope (registerDecls exampleConvState exampleCollidingDecls) =
      ["xsr_sampler", "xsr_sampler"] ∧
    ¬ (currentScope (registerDecls exampleConvState exampleCollidingDecls)).Nodup := by
  exact ⟨rfl, by decide⟩

/-- In non-obfuscation mode with a prefix whose prefixed forms are never
reserved nor gl-prefixed, the reserved-keyword rename keeps the state and
produces an identifier that is neither reserved nor gl-prefixed. -/
theorem renameReservedKeywordGood (st : ConvState) (x : String)
    (hobf : st.obfuscate = false)
    (h1 : ∀ s, st.reservedWords.contains (st.reservedWordPre ++ s) = false)
    (h2 : ∀ s, beginsWithGl (st.reservedWordPre ++ s) = false) :
    (renameReservedKeyword st x).2 = st ∧
    st.reservedWords.contains (renameReservedKeyword st x).1 = false ∧
    beginsWithGl (renameReservedKeyword st x).1 = false := by
  unfold renameReservedKeyword
  split_ifs with hobf2 hc hg
  · rw [hobf] at hobf2; cases hobf2
  · exact ⟨rfl, h1 x, h2 x⟩
  · exact ⟨rfl, h1 x, h2 x⟩
  · refine ⟨rfl, ?_, ?_⟩
    · simpa using hc
    · simpa using hg

/-- SymbolTable registration does not change the converter options. -/
theorem registerIdentFields (st : ConvState) (x : String) :
    (registerIdent st x).obfuscate = st.obfuscate ∧
    (registerIdent st x).reservedWords = st.reservedWords ∧
    (registerIdent st x).reservedWordPre = st.reservedWordPre := by
  unfold registerIdent
  cases st.scopes <;> exact ⟨rfl, rfl, rfl⟩

/-- Membership in the innermost scope after a registration. -/
theorem registerIdentScope (st : ConvState) (x : String) (i : String) :
    i ∈ currentScope (registerIdent st x) → i = x ∨ i ∈ currentScope st := by
  cases hs : st.scopes with
  | nil =>
    simp only [registerIdent, hs]
    exact fun hi => Or.inr hi
  | cons sc rest =>
    simp only [registerIdent, hs, currentScope]
    dsimp only [List.headD]
    exact fun hi => List.mem_cons.mp hi

/-- C7 amended: the converter guarantees the reserved-word part of the
invariant under a safe prefix, but not scope uniqueness: after registering
any declarations in non-obfuscation mode, with a reserved-word prefix whose
prefixed forms are never reserved nor gl-prefixed, every identifier in the
innermost scope is neither a reserved keyword nor gl-prefixed; uniqueness
within the scope fails in general (see the counterexample). -/
theorem C7_reserved_rename_amended :
    ∀ (st0 : ConvState) (ds : List Decl),
      st0.obfuscate = false →
      (∀ s, st0.reservedWords.contains (st0.reservedWordPre ++ s) = false) →
      (∀ s, beginsWithGl (st0.reservedWordPre ++ s) = false) →
      (∀ i ∈ currentScope st0,
        st0.reservedWords.contains i = false ∧ beginsWithGl i = false) →
      ∀ i ∈ currentScope (registerDecls st0 ds),
        st0.reservedWords.contains i = false ∧ beginsWithGl i = false := by
  intro st0 ds hobf h1 h2 hscope
  have main := foldlPreserve
    (fun st => st.obfuscate = false ∧ st.reservedWords = st0.reservedWords ∧
      st.reservedWordPre = st0.reservedWordPre ∧
      ∀ i ∈ currentScope st,
        st0.reservedWords.contains i = false ∧ beginsWithGl i = false)
    (fun st d => registerDeclIdent st d false)
    ?_ ds st0 ⟨hobf, rfl, rfl, hscope⟩
  · exact main.2.2.2
  · intro st d hP
    obtain ⟨ho, hrw, hpre, hsc⟩ := hP
    have hrn := renameReservedKeywordGood st
      (if mustRenameDeclIdent st d = true then st.temporaryPre ++ d.ident else d.ident) ho
      (fun s => by rw [hrw, hpre]; exact h1 s)
      (fun s => by rw [hpre]; exact h2 s)
    have hstep : registerDeclIdent st d false =
        registerIdent st
          (renameReservedKeyword st
            (if mustRenameDeclIdent st d = true then st.temporaryPre ++ d.ident else d.ident)).1 := by
      unfold registerDeclIdent
      rw [if_neg (by decide)]
      rw [hrn.1]
    dsimp only
    rw [hstep]
    refine ⟨?_, ?_, ?_, ?_⟩
    · rw [(registerIdentFields st _).1, ho]
    · rw [(registerIdentFields st _).2.1, hrw]
    · rw [(registerIdentFields st _).2.2, hpre]
    · intro i hi
      rcases registerIdentScope st _ i hi with hi | hi
      · rw [hi]
        rw [hrw] at hrn
        exact ⟨hrn.2.1, hrn.2.2⟩
      · exact hsc i hi

/-- Witness for C7 amended: registering the reserved word sampler under the
xsr prefix yields an identifier that is neither reserved nor gl-prefixed. -/
theorem C7_reserved_rename_amended_witness :
    (exampleConvState.obfuscate = false ∧
      (∀ s, exampleConvState.reservedWords.contains (exampleConvState.reservedWordPre ++ s) = false) ∧
      (∀ s, beginsWithGl (exampleConvState.reservedWordPre ++ s) = false) ∧
      (∀ i ∈ currentScope exampleConvState,
        exampleConvState.reservedWords.contains i = false ∧ beginsWithGl i = false)) ∧
    (∀ i ∈ currentScope (registerDecls exampleConvState [{ declId := 1, ident := "sampler" }]),
      exampleConvState.reservedWords.contains i = false ∧ beginsWithGl i = false) := by
  have hpre : ∀ s : String,
      exampleConvState.reservedWords.contains (exampleConvState.reservedWordPre ++ s) = false := by
    intro s
    have hne : ("xsr_" ++ s) ≠ "sampler" := by
      intro hh
      have hd := congrArg String.data hh
      rw [String.data_append] at hd
      exact absurd hd (by simp)
    simpa [exampleConvState, List.contains] using hne
  have hgl : ∀ s : String, beginsWithGl (exampleConvState.reservedWordPre ++ s) = false := by
    intro s
    show beginsWithGl ("xsr_" ++ s) = false
    unfold beginsWithGl
    rw [String.data_append]
    simp
  have hsc : ∀ i ∈ currentScope exampleConvState,
      exampleConvState.reservedWords.contains i = false ∧ beginsWithGl i = false := by
    intro i hi
    exact absurd hi (by simp [exampleConvState, currentScope])
  exact ⟨⟨rfl, hpre, hgl, hsc⟩,
    C7_reserved_rename_amended exampleConvState [{ declId := 1, ident := "sampler" }]
      rfl hpre hgl hsc⟩

/-- C4 counterexample: a declarator with an attached default value inside a
member statement whose type denoter is a struct denoter keeps defaultValue
-1 and nothing is appended to the default values, against the claim that
every declarator with an attached default gets its payload copied. -/
theorem c4_counterexample :
    ((exampleStructDefaultUBD.varMembers.getD 0
        { typeSpecifier := { typeDenoter := .otherTD }, varDecls := [] }).varDecls.getD 0
      { ident := "" }).defaultValue.available = true ∧
    (visitUniformBufferDecl .VertexShader exampleStructDefaultUBD {}).defaultValues = [] ∧
    (visitUniformBufferDecl .VertexShader exampleStructDefaultUBD {}).uniforms =
      [{ ident := "cb", type := .UniformBuffer, baseType := 0, uniformBlock := -1,
          defaultValue := -1, flags := 0, spriteUVRef := "" },
        { ident := "m", type := .Struct, baseType := 0, uniformBlock := 0,
          defaultValue := -1, flags := 0, spriteUVRef := "" }] := by
  exact ⟨rfl, rfl, rfl⟩

/-- C4 amended: a member declarator has its default payload copied into the
default values and the index of the appended entry stored exactly when the
member statement's type is read through a base type denoter and a default is
attached; under a struct or other denoter, or without an attached default,
the declarator keeps defaultValue -1 and the default values are unchanged. -/
theorem C4_default_value_amended :
    ∀ (blockIdx : Int) (ty : Reflection.UniformType) (btCode : Int)
      (btd : Option (ExtModifiers × String))
      (acc : List Reflection.Uniform × List Reflection.DefaultValue) (decl : VarDecl),
      (∀ ext uv, btd = some (ext, uv) → decl.defaultValue.available = true →
        (∃ u, (uniformMemberStep blockIdx ty btCode btd acc decl).1 = acc.1 ++ [u] ∧
          u.defaultValue = (acc.2.length : Int)) ∧
        (uniformMemberStep blockIdx ty btCode btd acc decl).2 =
          acc.2 ++ [.raw decl.defaultValue.payload]) ∧
      ((btd = none ∨ decl.defaultValue.available = false) →
        (∃ u, (uniformMemberStep blockIdx ty btCode btd acc decl).1 = acc.1 ++ [u] ∧
          u.defaultValue = -1) ∧
        (uniformMemberStep blockIdx ty btCode btd acc decl).2 = acc.2) := by
  intro blockIdx ty btCode btd acc decl
  constructor
  · intro ext uv hbtd hav
    subst hbtd
    unfold uniformMemberStep
    dsimp only
    rw [if_pos hav]
    exact ⟨⟨_, rfl, rfl⟩, rfl⟩
  · intro h
    rcases h with h | h
    · subst h
      unfold uniformMemberStep
      exact ⟨⟨_, rfl, rfl⟩, rfl⟩
    · cases btd with
      | none =>
        unfold uniformMemberStep
        exact ⟨⟨_, rfl, rfl⟩, rfl⟩
      | some p =>
        obtain ⟨ext, uv⟩ := p
        unfold uniformMemberStep
        dsimp only
        rw [if_neg (by rw [h]; decide)]
        exact ⟨⟨_, rfl, rfl⟩, rfl⟩

/-- Witness for C4 amended at a base-typed declarator with a default. -/
theorem C4_default_value_amended_witness :
    ((some ({}, "") : Option (ExtModifiers × String)) = some ({}, "") ∧
      ({ ident := "v", defaultValue := { available := true, payload := [3] } } :
        VarDecl).defaultValue.available = true) ∧
    ((∃ u, (uniformMemberStep 0 .Variable 5 (some ({}, "")) ([], [])
        { ident := "v", defaultValue := { available := true, payload := [3] } }).1 =
          [] ++ [u] ∧
        u.defaultValue = (([] : List Reflection.DefaultValue).length : Int)) ∧
      (uniformMemberStep 0 .Variable 5 (some ({}, "")) ([], [])
        { ident := "v", defaultValue := { available := true, payload := [3] } }).2 =
        [] ++ [.raw [3]]) :=
  ⟨⟨rfl, rfl⟩,
    (C4_default_value_amended 0 .Variable 5 (some ({}, "")) ([], [])
      { ident := "v", defaultValue := { available := true, payload := [3] } }).1
      {} "" rfl rfl⟩

/-- Index validity is monotone in the sequence lengths. -/
theorem uniformOkMono (cb cb2 dv dv2 : Nat) (u : Reflection.Uniform)
    (hcb : cb ≤ cb2) (hdv : dv ≤ dv2) (h : uniformOk cb dv u) : uniformOk cb2 dv2 u := by
  unfold uniformOk at *
  omega

/-- One member declarator preserves index validity when the block index is a
valid position. -/
theorem memberStepOk (cb : Nat) (blockIdx : Int) (ty : Reflection.UniformType)
    (btCode : Int) (btd : Option (ExtModifiers × String)) (decl : VarDecl)
    (h0 : 0 ≤ blockIdx) (hlt : blockIdx < (cb : Int)) :
    ∀ (acc : List Reflection.Uniform × List Reflection.DefaultValue),
      (∀ u ∈ acc.1, uniformOk cb acc.2.length u) →
      ∀ u ∈ (uniformMemberStep blockIdx ty btCode btd acc decl).1,
        uniformOk cb (uniformMemberStep blockIdx ty btCode btd acc decl).2.length u := by
  intro acc hacc
  cases btd with
  | none =>
    intro u hu
    unfold uniformMemberStep at hu ⊢
    rcases List.mem_append.mp hu with hu | hu
    · exact hacc u hu
    · rw [List.mem_singleton.mp hu]
      exact ⟨Or.inr ⟨h0, hlt⟩, Or.inl rfl⟩
  | some p =>
    obtain ⟨ext, uv⟩ := p
    by_cases hav : decl.defaultValue.available = true
    · intro u hu
      unfold uniformMemberStep at hu ⊢
      dsimp only at hu ⊢
      rw [if_pos hav] at hu ⊢
      rcases List.mem_append.mp hu with hu | hu
      · refine uniformOkMono cb cb acc.2.length _ u (Nat.le_refl cb) ?_ (hacc u hu)
        simp only [List.length_append, List.length_cons, List.length_nil]
        omega
      · rw [List.mem_singleton.mp hu]
        refine ⟨Or.inr ⟨h0, hlt⟩, Or.inr ⟨?_, ?_⟩⟩
        · exact Int.natCast_nonneg _
        · simp only [List.length_append, List.length_cons, List.length_nil]
          omega
    · intro u hu
      unfold uniformMemberStep at hu ⊢
      dsimp only at hu ⊢
      rw [if_neg hav] at hu ⊢
      rcases List.mem_append.mp hu with hu | hu
      · exact hacc u hu
      · rw [List.mem_singleton.mp hu]
        exact ⟨Or.inr ⟨h0, hlt⟩, Or.inl rfl⟩

/-- The member fold of a uniform buffer preserves index validity. -/
theorem ubFoldOk (cb : Nat) (blockIdx : Int)
    (h0 : 0 ≤ blockIdx) (hlt : blockIdx < (cb : Int)) (members : List VarDeclStmnt) :
    ∀ (acc : List Reflection.Uniform × List Reflection.DefaultValue),
      (∀ u ∈ acc.1, uniformOk cb acc.2.length u) →
      ∀ u ∈ (members.foldl (uniformBufferMemberStmnt blockIdx) acc).1,
        uniformOk cb (members.foldl (uniformBufferMemberStmnt blockIdx) acc).2.length u := by
  intro acc hacc
  refine foldlPreserve (fun b => ∀ u ∈ b.1, uniformOk cb b.2.length u)
    (uniformBufferMemberStmnt blockIdx) ?_ members acc hacc
  intro b stmt hb
  unfold uniformBufferMemberStmnt
  cases htd : stmt.typeSpecifier.typeDenoter with
  | structTD ident =>
    exact foldlPreserve _ _
      (fun b2 dc hb2 => memberStepOk cb blockIdx _ _ none dc h0 hlt b2 hb2)
      stmt.varDecls b hb
  | baseTD dt ext uv =>
    exact foldlPreserve _ _
      (fun b2 dc hb2 => memberStepOk cb blockIdx _ _ (some (ext, uv)) dc h0 hlt b2 hb2)
      stmt.varDecls b hb
  | arrayTD sub =>
    exact foldlPreserve _ _
      (fun b2 dc hb2 => memberStepOk cb blockIdx _ _ none dc h0 hlt b2 hb2)
      stmt.varDecls b hb
  | otherTD =>
    exact foldlPreserve _ _
      (fun b2 dc hb2 => memberStepOk cb blockIdx _ _ none dc h0 hlt b2 hb2)
      stmt.varDecls b hb

/-- VisitUniformBufferDecl preserves index validity. -/
theorem visitUBDOk (t : ShaderTarget) (d : UniformBufferDecl) (r : Reflection.ReflectionData)
    (h : uniformIndexInv r) : uniformIndexInv (visitUniformBufferDecl t d r) := by
  unfold uniformIndexInv at h ⊢
  unfold visitUniformBufferDecl
  dsimp only
  intro u hu
  refine ubFoldOk _ _ ?_ ?_ d.varMembers _ ?_ u hu
  · simp only [List.length_append, List.length_cons, List.length_nil]
    omega
  · simp only [List.length_append, List.length_cons, List.length_nil]
    omega
  · intro u2 hu2
    rcases List.mem_append.mp hu2 with hu2 | hu2
    · refine uniformOkMono r.constantBuffers.length _ r.defaultValues.length _ u2 ?_
        (Nat.le_refl _) (h u2 hu2)
      simp only [List.length_append, List.length_cons, List.length_nil]
      omega
    · rw [List.mem_singleton.mp hu2]
      exact ⟨Or.inl rfl, Or.inl rfl⟩

/-- One buffer declaration preserves index validity. -/
theorem bufferDeclStepOk (t : ShaderTarget) (td : BufferTypeDenoter) :
    ∀ (r : Reflection.ReflectionData) (bd : BufferDecl),
      uniformIndexInv r → uniformIndexInv (bufferDeclStep t td r bd) := by
  intro r bd h
  unfold uniformIndexInv at h ⊢
  unfold bufferDeclStep
  dsimp only
  split_ifs with h1 h2 h3 <;>
    (intro u hu;
     rcases List.mem_append.mp hu with hu | hu;
     · first
       | exact h u hu
       | (refine uniformOkMono r.constantBuffers.length _ r.defaultValues.length _ u
            (Nat.le_refl _) ?_ (h u hu);
          simp only [List.length_append, List.length_cons, List.length_nil];
          omega)
     · rw [List.mem_singleton.mp hu];
       first
       | exact ⟨Or.inl rfl, Or.inl rfl⟩
       | (refine ⟨Or.inl rfl, Or.inr ⟨Int.natCast_nonneg _, ?_⟩⟩;
          simp only [List.length_append, List.length_cons, List.length_nil];
          omega))

/-- VisitStateDecl keeps the uniform, constant-buffer, default-value and
sampler-state sequences. -/
theorem visitStateDeclKeeps (d : StateDecl) (r : Reflection.ReflectionData) :
    (visitStateDecl d r).uniforms = r.uniforms ∧
    (visitStateDecl d r).constantBuffers = r.constantBuffers ∧
    (visitStateDecl d r).defaultValues = r.defaultValues ∧
    (visitStateDecl d r).samplerStates = r.samplerStates := by
  obtain ⟨sty, init⟩ := d
  cases init with
  | none => exact ⟨rfl, rfl, rfl, rfl⟩
  | some exprs => cases sty <;> exact ⟨rfl, rfl, rfl, rfl⟩

/-- ReflectAttributes keeps the uniform, constant-buffer, default-value and
sampler-state sequences. -/
theorem reflectAttributesKeeps (t : ShaderTarget) (as2 : List Attribute)
    (r : Reflection.ReflectionData) :
    (reflectAttributes t as2 r).uniforms = r.uniforms ∧
    (reflectAttributes t as2 r).constantBuffers = r.constantBuffers ∧
    (reflectAttributes t as2 r).defaultValues = r.defaultValues ∧
    (reflectAttributes t as2 r).samplerStates = r.samplerStates := by
  unfold reflectAttributes
  refine foldlPreserve
    (fun x => x.uniforms = r.uniforms ∧ x.constantBuffers = r.constantBuffers ∧
      x.defaultValues = r.defaultValues ∧ x.samplerStates = r.samplerStates)
    _ ?_ as2 r ⟨rfl, rfl, rfl, rfl⟩
  intro b a hb
  cases ha : a.attributeType with
  | NumThreads =>
    unfold reflectAttributesNumThreads
    split_ifs
    · exact hb
    · exact hb
  | OtherAttribute => exact hb

/-- VisitFunctionDecl keeps the uniform, constant-buffer, default-value and
sampler-state sequences. -/
theorem visitFunctionDeclKeeps (t : ShaderTarget) (f : FunctionDecl)
    (r : Reflection.ReflectionData) :
    (visitFunctionDecl t f r).uniforms = r.uniforms ∧
    (visitFunctionDecl t f r).constantBuffers = r.constantBuffers ∧
    (visitFunctionDecl t f r).defaultValues = r.defaultValues ∧
    (visitFunctionDecl t f r).samplerStates = r.samplerStates := by
  unfold visitFunctionDecl
  dsimp only
  by_cases hep : f.isEntryPoint = true
  · rw [if_pos hep]
    exact reflectAttributesKeeps t f.attribs r
  · rw [if_neg hep]
    exact ⟨rfl, rfl, rfl, rfl⟩

/-- Each visited statement preserves index validity. -/
theorem reflectStmntOk (t : ShaderTarget) :
    ∀ (r : Reflection.ReflectionData) (s : Stmnt),
      uniformIndexInv r → uniformIndexInv (reflectStmnt t r s) := by
  intro r s h
  cases s with
  | samplerDecl d =>
    intro u hu
    rcases List.mem_append.mp hu with hu | hu
    · exact h u hu
    · rw [List.mem_singleton.mp hu]
      exact ⟨Or.inl rfl, Or.inl rfl⟩
  | stateDecl d =>
    have hk := visitStateDeclKeeps d r
    intro u hu
    unfold reflectStmnt at hu ⊢
    rw [hk.1] at hu
    unfold uniformIndexInv at h
    rw [hk.2.1, hk.2.2.1]
    exact h u hu
  | functionDecl f =>
    have hk := visitFunctionDeclKeeps t f r
    intro u hu
    unfold reflectStmnt at hu ⊢
    rw [hk.1] at hu
    unfold uniformIndexInv at h
    rw [hk.2.1, hk.2.2.1]
    exact h u hu
  | uniformBufferDecl d => exact visitUBDOk t d r h
  | bufferDeclStmnt d =>
    exact foldlPreserve uniformIndexInv (bufferDeclStep t d.typeDenoter)
      (fun b bd hb => bufferDeclStepOk t d.typeDenoter b bd hb) d.bufferDecls r h
  | otherStmnt => exact h

/-- C1: after the reflection analyzer finishes on any program, every
uniform's uniformBlock index is -1 or a valid index into the constant
buffers, and every defaultValue index is -1 or a valid index into the
default values. -/
theorem C1_uniform_index_invariant :
    ∀ (t : ShaderTarget) (p : Program) (u : Reflection.Uniform),
      u ∈ (reflect t p).uniforms →
      (u.uniformBlock = -1 ∨ (0 ≤ u.uniformBlock ∧
        u.uniformBlock < ((reflect t p).constantBuffers.length : Int))) ∧
      (u.defaultValue = -1 ∨ (0 ≤ u.defaultValue ∧
        u.defaultValue < ((reflect t p).defaultValues.length : Int))) := by
  intro t p
  have hfold : uniformIndexInv ((p.globalStmnts ++ p.disabledAST).foldl (reflectStmnt t) {}) :=
    foldlPreserve uniformIndexInv (reflectStmnt t) (reflectStmntOk t)
      (p.globalStmnts ++ p.disabledAST) {}
      (fun u hu => absurd hu (List.not_mem_nil u))
  have heq : (reflect t p).uniforms =
        ((p.globalStmnts ++ p.disabledAST).foldl (reflectStmnt t) {}).uniforms ∧
      (reflect t p).constantBuffers =
        ((p.globalStmnts ++ p.disabledAST).foldl (reflectStmnt t) {}).constantBuffers ∧
      (reflect t p).defaultValues =
        ((p.globalStmnts ++ p.disabledAST).foldl (reflectStmnt t) {}).defaultValues := by
    unfold reflect
    dsimp only
    cases p.entryPointRef with
    | none => exact ⟨rfl, rfl, rfl⟩
    | some ep => exact ⟨rfl, rfl, rfl⟩
  intro u hu
  rw [heq.1] at hu
  rw [heq.2.1, heq.2.2]
  exact hfold u hu

/-- Witness for C1 at a concrete program with one constant buffer whose
member carries a default value. -/
theorem C1_uniform_index_invariant_witness :
    exampleMemberUniform ∈ (reflect .VertexShader exampleUniformProgram).uniforms ∧
    ((exampleMemberUniform.uniformBlock = -1 ∨ (0 ≤ exampleMemberUniform.uniformBlock ∧
        exampleMemberUniform.uniformBlock <
          ((reflect .VertexShader exampleUniformProgram).constantBuffers.length : Int))) ∧
      (exampleMemberUniform.defaultValue = -1 ∨ (0 ≤ exampleMemberUniform.defaultValue ∧
        exampleMemberUniform.defaultValue <
          ((reflect .VertexShader exampleUniformProgram).defaultValues.length : Int)))) :=
  ⟨by decide,
    C1_uniform_index_invariant .VertexShader exampleUniformProgram exampleMemberUniform
      (by decide)⟩

/-- Inserting a key leaves exactly one entry when at most one was there. -/
theorem mapCountInsertSelf (k : String) (v : Reflection.SamplerState)
    (m : List (String × Reflection.SamplerState)) :
    mapCountKey k (mapInsert k v m) = max 1 (mapCountKey k m) := by
  induction m with
  | nil =>
    simp [mapInsert, mapCountKey]
  | cons hd tl ih =>
    obtain ⟨k0, v0⟩ := hd
    by_cases h : k0 = k
    · simp only [mapInsert, if_pos h, mapCountKey]
      rw [max_eq_right (show 1 ≤ 1 + mapCountKey k tl by omega)]
    · simp only [mapInsert, if_neg h, mapCountKey]
      rw [ih, Nat.zero_add, Nat.zero_add]

/-- Inserting a key does not change the count of other keys. -/
theorem mapCountInsertNe (k k2 : String) (v : Reflection.SamplerState)
    (m : List (String × Reflection.SamplerState)) (h : k2 ≠ k) :
    mapCountKey k2 (mapInsert k v m) = mapCountKey k2 m := by
  induction m with
  | nil =>
    simp only [mapInsert, mapCountKey]
    rw [if_neg (fun hh => h hh.symm)]
  | cons hd tl ih =>
    obtain ⟨k0, v0⟩ := hd
    by_cases hh : k0 = k
    · simp only [mapInsert, if_pos hh, mapCountKey]
    · simp only [mapInsert, if_neg hh, mapCountKey]
      rw [ih]

/-- Appending one uniform adds one to the Sampler count exactly when it is a
Sampler uniform with the counted identifier. -/
theorem samplerUniformCountAppendOne (ident : String) (l : List Reflection.Uniform)
    (u : Reflection.Uniform) :
    samplerUniformCount ident (l ++ [u]) =
      samplerUniformCount ident l +
        (if u.ident = ident ∧ u.type = Reflection.UniformType.Sampler then 1 else 0) := by
  unfold samplerUniformCount
  rw [List.filter_append, List.length_append]
  congr 1
  by_cases hp : u.ident = ident ∧ u.type = Reflection.UniformType.Sampler
  · rw [if_pos hp]
    simp [List.filter_cons, hp]
  · rw [if_neg hp]
    simp only [List.filter_cons, List.filter_nil]
    rw [if_neg (by simpa using hp)]
    rfl

/-- One member declarator of a non-Sampler classified statement does not
change the Sampler uniform count. -/
theorem memberStepSamplerCount (ident : String) (blockIdx : Int)
    (ty : Reflection.UniformType) (btCode : Int) (btd : Option (ExtModifiers × String))
    (decl : VarDecl) (hty : ty ≠ Reflection.UniformType.Sampler)
    (acc : List Reflection.Uniform × List Reflection.DefaultValue) :
    samplerUniformCount ident (uniformMemberStep blockIdx ty btCode btd acc decl).1 =
      samplerUniformCount ident acc.1 := by
  unfold uniformMemberStep
  cases btd with
  | none =>
    rw [samplerUniformCountAppendOne, if_neg (fun hp => hty hp.2), Nat.add_zero]
  | some p =>
    obtain ⟨ext, uv⟩ := p
    dsimp only
    split_ifs <;>
      (dsimp only;
       rw [samplerUniformCountAppendOne, if_neg (fun hp => hty hp.2), Nat.add_zero])

/-- The member fold of a uniform buffer does not change the Sampler uniform
count. -/
theorem ubFoldSamplerCount (ident : String) (blockIdx : Int)
    (members : List VarDeclStmnt)
    (acc : List Reflection.Uniform × List Reflection.DefaultValue) :
    samplerUniformCount ident (members.foldl (uniformBufferMemberStmnt blockIdx) acc).1 =
      samplerUniformCount ident acc.1 := by
  refine foldlPreserve
    (fun b => samplerUniformCount ident b.1 = samplerUniformCount ident acc.1)
    (uniformBufferMemberStmnt blockIdx) ?_ members acc rfl
  intro b stmt hb
  unfold uniformBufferMemberStmnt
  cases htd : stmt.typeSpecifier.typeDenoter with
  | structTD ident2 =>
    dsimp only
    exact foldlPreserve (fun b2 => samplerUniformCount ident b2.1 = samplerUniformCount ident acc.1)
      (uniformMemberStep blockIdx .Struct (dataTypeToReflCode .Undefined) none)
      (fun b2 dc hb2 => by
        dsimp only
        rw [memberStepSamplerCount ident blockIdx Reflection.UniformType.Struct
          (dataTypeToReflCode .Undefined) none dc (by intro hh; cases hh) b2]
        exact hb2) stmt.varDecls b hb
  | baseTD dt ext uv =>
    dsimp only
    exact foldlPreserve (fun b2 => samplerUniformCount ident b2.1 = samplerUniformCount ident acc.1)
      (uniformMemberStep blockIdx .Variable (dataTypeToReflCode dt) (some (ext, uv)))
      (fun b2 dc hb2 => by
        dsimp only
        rw [memberStepSamplerCount ident blockIdx Reflection.UniformType.Variable
          (dataTypeToReflCode dt) (some (ext, uv)) dc (by intro hh; cases hh) b2]
        exact hb2) stmt.varDecls b hb
  | arrayTD sub =>
    dsimp only
    exact foldlPreserve (fun b2 => samplerUniformCount ident b2.1 = samplerUniformCount ident acc.1)
      (uniformMemberStep blockIdx .Variable (dataTypeToReflCode .Undefined) none)
      (fun b2 dc hb2 => by
        dsimp only
        rw [memberStepSamplerCount ident blockIdx Reflection.UniformType.Variable
          (dataTypeToReflCode .Undefined) none dc (by intro hh; cases hh) b2]
        exact hb2) stmt.varDecls b hb
  | otherTD =>
    dsimp only
    exact foldlPreserve (fun b2 => samplerUniformCount ident b2.1 = samplerUniformCount ident acc.1)
      (uniformMemberStep blockIdx .Variable (dataTypeToReflCode .Undefined) none)
      (fun b2 dc hb2 => by
        dsimp only
        rw [memberStepSamplerCount ident blockIdx Reflection.UniformType.Variable
          (dataTypeToReflCode .Undefined) none dc (by intro hh; cases hh) b2]
        exact hb2) stmt.varDecls b hb

/-- VisitUniformBufferDecl keeps the sampler states and the Sampler uniform
count. -/
theorem visitUBDSamplerKeeps (t : ShaderTarget) (d : UniformBufferDecl)
    (r : Reflection.ReflectionData) (ident : String) :
    (visitUniformBufferDecl t d r).samplerStates = r.samplerStates ∧
    samplerUniformCount ident (visitUniformBufferDecl t d r).uniforms =
      samplerUniformCount ident r.uniforms := by
  constructor
  · rfl
  · unfold visitUniformBufferDecl
    dsimp only
    rw [ubFoldSamplerCount]
    rw [samplerUniformCountAppendOne, if_neg (fun hp => by cases hp.2), Nat.add_zero]

/-- One buffer declaration keeps the sampler states and the Sampler uniform
count. -/
theorem bufferDeclStepSamplerKeeps (t : ShaderTarget) (td : BufferTypeDenoter)
    (r : Reflection.ReflectionData) (bd : BufferDecl) (ident : String) :
    (bufferDeclStep t td r bd).samplerStates = r.samplerStates ∧
    samplerUniformCount ident (bufferDeclStep t td r bd).uniforms =
      samplerUniformCount ident r.uniforms := by
  unfold bufferDeclStep
  dsimp only
  split_ifs <;>
    exact ⟨rfl, by
      dsimp only
      rw [samplerUniformCountAppendOne, if_neg (fun hp => by cases hp.2), Nat.add_zero]⟩

/-- VisitBufferDeclStmnt keeps the sampler states and the Sampler uniform
count. -/
theorem visitBufferDeclStmntSamplerKeeps (t : ShaderTarget) (d : BufferDeclStmnt)
    (r : Reflection.ReflectionData) (ident : String) :
    (visitBufferDeclStmnt t d r).samplerStates = r.samplerStates ∧
    samplerUniformCount ident (visitBufferDeclStmnt t d r).uniforms =
      samplerUniformCount ident r.uniforms := by
  unfold visitBufferDeclStmnt
  refine foldlPreserve
    (fun x => x.samplerStates = r.samplerStates ∧
      samplerUniformCount ident x.uniforms = samplerUniformCount ident r.uniforms)
    (bufferDeclStep t d.typeDenoter) ?_ d.bufferDecls r ⟨rfl, rfl⟩
  intro b bd hb
  have hk := bufferDeclStepSamplerKeeps t d.typeDenoter b bd ident
  exact ⟨hk.1.trans hb.1, hk.2.trans hb.2⟩

/-- Per-statement Sampler uniform count: one per sampler declaration with
the counted identifier, none from any other statement. -/
theorem stmtsSamplerUniformCount (t : ShaderTarget) (ident : String) :
    ∀ (stmts : List Stmnt) (r : Reflection.ReflectionData),
      samplerUniformCount ident ((stmts.foldl (reflectStmnt t) r).uniforms) =
        samplerUniformCount ident r.uniforms + (samplerDeclsOf ident stmts).length := by
  intro stmts
  induction stmts with
  | nil => intro r; rfl
  | cons s rest ih =>
    intro r
    rw [List.foldl_cons, ih (reflectStmnt t r s)]
    cases s with
    | samplerDecl d =>
      unfold samplerDeclsOf
      rw [List.filterMap_cons]
      dsimp only
      by_cases hid : d.ident = ident
      · rw [if_pos hid]
        dsimp only
        have hc : samplerUniformCount ident (visitSamplerDecl d r).uniforms =
            samplerUniformCount ident r.uniforms + 1 := by
          unfold visitSamplerDecl
          dsimp only
          rw [samplerUniformCountAppendOne, if_pos ⟨hid, rfl⟩]
        rw [show reflectStmnt t r (Stmnt.samplerDecl d) = visitSamplerDecl d r from rfl, hc]
        rw [List.length_cons]
        omega
      · rw [if_neg hid]
        dsimp only
        have hc : samplerUniformCount ident (visitSamplerDecl d r).uniforms =
            samplerUniformCount ident r.uniforms := by
          unfold visitSamplerDecl
          dsimp only
          rw [samplerUniformCountAppendOne, if_neg (fun hp => hid hp.1), Nat.add_zero]
        rw [show reflectStmnt t r (Stmnt.samplerDecl d) = visitSamplerDecl d r from rfl, hc]
    | stateDecl d =>
      rw [show reflectStmnt t r (Stmnt.stateDecl d) = visitStateDecl d r from rfl,
        (visitStateDeclKeeps d r).1]
      rfl
    | functionDecl f =>
      rw [show reflectStmnt t r (Stmnt.functionDecl f) = visitFunctionDecl t f r from rfl,
        (visitFunctionDeclKeeps t f r).1]
      rfl
    | uniformBufferDecl d =>
      rw [show reflectStmnt t r (Stmnt.uniformBufferDecl d) = visitUniformBufferDecl t d r from rfl,
        (visitUBDSamplerKeeps t d r ident).2]
      rfl
    | bufferDeclStmnt d =>
      rw [show reflectStmnt t r (Stmnt.bufferDeclStmnt d) = visitBufferDeclStmnt t d r from rfl,
        (visitBufferDeclStmntSamplerKeeps t d r ident).2]
      rfl
    | otherStmnt => rfl

/-- Per-statement sampler-state entry count: a sampler declaration with the
counted identifier leaves exactly one entry, everything else changes
nothing. -/
theorem stmtsSamplerStatesCount (t : ShaderTarget) (ident : String) :
    ∀ (stmts : List Stmnt) (r : Reflection.ReflectionData),
      mapCountKey ident ((stmts.foldl (reflectStmnt t) r).samplerStates) =
        (if (samplerDeclsOf ident stmts).isEmpty = true then
          mapCountKey ident r.samplerStates
        else max 1 (mapCountKey ident r.samplerStates)) := by
  intro stmts
  induction stmts with
  | nil => intro r; rfl
  | cons s rest ih =>
    intro r
    rw [List.foldl_cons, ih (reflectStmnt t r s)]
    cases s with
    | samplerDecl d =>
      by_cases hid : d.ident = ident
      · subst hid
        have hdecl : samplerDeclsOf d.ident (Stmnt.samplerDecl d :: rest) =
            d :: samplerDeclsOf d.ident rest := by
          unfold samplerDeclsOf
          rw [List.filterMap_cons]
          dsimp only
          rw [if_pos rfl]
        rw [hdecl, List.isEmpty_cons]
        have hcount : mapCountKey d.ident
            (reflectStmnt t r (Stmnt.samplerDecl d)).samplerStates =
            max 1 (mapCountKey d.ident r.samplerStates) :=
          mapCountInsertSelf d.ident (decodeSamplerDecl d) r.samplerStates
        rw [hcount, if_neg (show ¬ (false = true) from by decide)]
        by_cases hrest : (samplerDeclsOf d.ident rest).isEmpty = true
        · rw [if_pos hrest]
        · rw [if_neg hrest, ← max_assoc, max_self]
      · have hdecl : samplerDeclsOf ident (Stmnt.samplerDecl d :: rest) =
            samplerDeclsOf ident rest := by
          unfold samplerDeclsOf
          rw [List.filterMap_cons]
          dsimp only
          rw [if_neg hid]
        rw [hdecl]
        have hcount : mapCountKey ident
            (reflectStmnt t r (Stmnt.samplerDecl d)).samplerStates =
            mapCountKey ident r.samplerStates :=
          mapCountInsertNe d.ident ident (decodeSamplerDecl d) r.samplerStates
            (fun hh => hid hh.symm)
        rw [hcount]
    | stateDecl d =>
      rw [show reflectStmnt t r (Stmnt.stateDecl d) = visitStateDecl d r from rfl,
        (visitStateDeclKeeps d r).2.2.2]
      rfl
    | functionDecl f =>
      rw [show reflectStmnt t r (Stmnt.functionDecl f) = visitFunctionDecl t f r from rfl,
        (visitFunctionDeclKeeps t f r).2.2.2]
      rfl
    | uniformBufferDecl d =>
      rw [show reflectStmnt t r (Stmnt.uniformBufferDecl d) = visitUniformBufferDecl t d r from rfl,
        (visitUBDSamplerKeeps t d r ident).1]
      rfl
    | bufferDeclStmnt d =>
      rw [show reflectStmnt t r (Stmnt.bufferDeclStmnt d) = visitBufferDeclStmnt t d r from rfl,
        (visitBufferDeclStmntSamplerKeeps t d r ident).1]
      rfl
    | otherStmnt => rfl

/-- A left fold of the last-sampler scan from an arbitrary accumulator is
the scan from none, falling back to the accumulator. -/
theorem lastSamplerAcc (ident : String) :
    ∀ (stmts : List Stmnt) (acc : Option SamplerDecl),
      stmts.foldl
        (fun acc s =>
          match s with
          | .samplerDecl d => if d.ident = ident then some d else acc
          | _ => acc) acc =
      (match stmts.foldl
        (fun acc s =>
          match s with
          | .samplerDecl d => if d.ident = ident then some d else acc
          | _ => acc) none with
      | some d => some d
      | none => acc) := by
  intro stmts
  induction stmts with
  | nil => intro acc; rfl
  | cons s rest ih =>
    intro acc
    rw [List.foldl_cons, List.foldl_cons]
    cases s with
    | samplerDecl d =>
      dsimp only
      by_cases hid : d.ident = ident
      · rw [if_pos hid, if_pos hid, ih (some d)]
        cases hF : rest.foldl
            (fun acc s =>
              match s with
              | Stmnt.samplerDecl d => if d.ident = ident then some d else acc
              | _ => acc) none with
        | some d2 => rfl
        | none => rfl
      · rw [if_neg hid, if_neg hid]
        exact ih acc
    | stateDecl d => exact ih acc
    | functionDecl f => exact ih acc
    | uniformBufferDecl d => exact ih acc
    | bufferDeclStmnt d => exact ih acc
    | otherStmnt => exact ih acc

/-- The sampler-state entry for an identifier after the walk is the decoded
state of the last sampler declaration carrying it, if any. -/
theorem stmtsSamplerStatesLookup (t : ShaderTarget) (ident : String) :
    ∀ (stmts : List Stmnt) (r : Reflection.ReflectionData),
      mapLookup ident ((stmts.foldl (reflectStmnt t) r).samplerStates) =
        (match lastSamplerDecl ident stmts with
          | some d => some (decodeSamplerDecl d)
          | none => mapLookup ident r.samplerStates) := by
  intro stmts
  induction stmts with
  | nil => intro r; rfl
  | cons s rest ih =>
    intro r
    rw [List.foldl_cons, ih (reflectStmnt t r s)]
    cases s with
    | samplerDecl d =>
      by_cases hid : d.ident = ident
      · have hl : lastSamplerDecl ident (Stmnt.samplerDecl d :: rest) =
            (match lastSamplerDecl ident rest with
              | some d2 => some d2
              | none => some d) := by
          unfold lastSamplerDecl
          rw [List.foldl_cons]
          dsimp only
          rw [if_pos hid]
          exact lastSamplerAcc ident rest (some d)
        rw [hl]
        have hlook : mapLookup ident
            (reflectStmnt t r (Stmnt.samplerDecl d)).samplerStates =
            some (decodeSamplerDecl d) := by
          show mapLookup ident (mapInsert d.ident (decodeSamplerDecl d) r.samplerStates) = _
          rw [← hid]
          exact mapLookupInsert d.ident _ _
        cases hr : lastSamplerDecl ident rest with
        | some d2 => rfl
        | none => exact hlook
      · have hl : lastSamplerDecl ident (Stmnt.samplerDecl d :: rest) =
            lastSamplerDecl ident rest := by
          unfold lastSamplerDecl
          rw [List.foldl_cons]
          dsimp only
          rw [if_neg hid]
        rw [hl]
        have hlook : mapLookup ident
            (reflectStmnt t r (Stmnt.samplerDecl d)).samplerStates =
            mapLookup ident r.samplerStates := by
          show mapLookup ident (mapInsert d.ident (decodeSamplerDecl d) r.samplerStates) = _
          exact mapLookupInsertNe d.ident ident _ _ (fun hh => hid hh.symm)
        rw [hlook]
    | stateDecl d =>
      rw [show reflectStmnt t r (Stmnt.stateDecl d) = visitStateDecl d r from rfl,
        (visitStateDeclKeeps d r).2.2.2]
      rfl
    | functionDecl f =>
      rw [show reflectStmnt t r (Stmnt.functionDecl f) = visitFunctionDecl t f r from rfl,
        (visitFunctionDeclKeeps t f r).2.2.2]
      rfl
    | uniformBufferDecl d =>
      rw [show reflectStmnt t r (Stmnt.uniformBufferDecl d) = visitUniformBufferDecl t d r from rfl,
        (visitUBDSamplerKeeps t d r ident).1]
      rfl
    | bufferDeclStmnt d =>
      rw [show reflectStmnt t r (Stmnt.bufferDeclStmnt d) = visitBufferDeclStmnt t d r from rfl,
        (visitBufferDeclStmntSamplerKeeps t d r ident).1]
      rfl
    | otherStmnt => rfl

/-- C10: with two or more sampler declarations sharing an identifier, the
sampler-state map holds exactly one entry for it, decoded from the last such
declaration visited, while the uniforms sequence holds one Sampler-typed
uniform per declaration. -/
theorem C10_duplicate_sampler_idents :
    ∀ (t : ShaderTarget) (p : Program) (ident : String),
      2 ≤ (samplerDeclsOf ident (p.globalStmnts ++ p.disabledAST)).length →
      mapCountKey ident (reflect t p).samplerStates = 1 ∧
      (∀ d, lastSamplerDecl ident (p.globalStmnts ++ p.disabledAST) = some d →
        mapLookup ident (reflect t p).samplerStates = some (decodeSamplerDecl d)) ∧
      samplerUniformCount ident (reflect t p).uniforms =
        (samplerDeclsOf ident (p.globalStmnts ++ p.disabledAST)).length := by
  intro t p ident h2
  have hkeep : (reflect t p).samplerStates =
      ((p.globalStmnts ++ p.disabledAST).foldl (reflectStmnt t) {}).samplerStates ∧
      (reflect t p).uniforms =
      ((p.globalStmnts ++ p.disabledAST).foldl (reflectStmnt t) {}).uniforms := by
    unfold reflect
    dsimp only
    cases p.entryPointRef with
    | none => exact ⟨rfl, rfl⟩
    | some ep => exact ⟨rfl, rfl⟩
  have hne : (samplerDeclsOf ident (p.globalStmnts ++ p.disabledAST)).isEmpty = false := by
    cases hsd : samplerDeclsOf ident (p.globalStmnts ++ p.disabledAST) with
    | nil => rw [hsd] at h2; exact absurd h2 (by decide)
    | cons a l => rfl
  refine ⟨?_, ?_, ?_⟩
  · rw [hkeep.1, stmtsSamplerStatesCount t ident _ {}]
    rw [hne, if_neg (by decide)]
    rfl
  · intro d hd
    rw [hkeep.1, stmtsSamplerStatesLookup t ident _ {}, hd]
  · rw [hkeep.2, stmtsSamplerUniformCount t ident _ {}]
    rw [show samplerUniformCount ident ({} : Reflection.ReflectionData).uniforms = 0 from rfl,
      Nat.zero_add]

/-- Witness for C10 at the concrete two-declaration program. -/
theorem C10_duplicate_sampler_idents_witness :
    (2 ≤ (samplerDeclsOf "S"
        (exampleDuplicateSamplerProgram.globalStmnts ++
          exampleDuplicateSamplerProgram.disabledAST)).length ∧
      lastSamplerDecl "S"
        (exampleDuplicateSamplerProgram.globalStmnts ++
          exampleDuplicateSamplerProgram.disabledAST) = some exampleSamplerDecl2) ∧
    mapCountKey "S" (reflect .VertexShader exampleDuplicateSamplerProgram).samplerStates = 1 ∧
    mapLookup "S" (reflect .VertexShader exampleDuplicateSamplerProgram).samplerStates =
      some (decodeSamplerDecl exampleSamplerDecl2) ∧
    samplerUniformCount "S" (reflect .VertexShader exampleDuplicateSamplerProgram).uniforms =
      (samplerDeclsOf "S"
        (exampleDuplicateSamplerProgram.globalStmnts ++
          exampleDuplicateSamplerProgram.disabledAST)).length := by
  have h := C10_duplicate_sampler_idents .VertexShader exampleDuplicateSamplerProgram "S"
    (by decide)
  exact ⟨⟨by decide, by decide⟩, h.1, h.2.1 exampleSamplerDecl2 (by decide), h.2.2⟩

end Xsc
